import Mathlib

/-!
# Gardener: force-delete flow and watch predicates

A shallow embedding of

* `pkg/gardenlet/controller/shoot/shoot/reconciler_force_delete.go`
  (`runForceDeleteShootFlow`: the task graph it builds, its control flow and the
  error context it seeds),
* `pkg/controllerutils/predicate/predicate.go`,
* `pkg/gardenlet/controller/seed/care/add.go` (`SeedPredicate`),
* `pkg/gardenlet/controller/shoot/state/add.go` (`SeedNameChangedPredicate`),
* `pkg/gardenlet/controller/controllerinstallation/controllerinstallation/add.go`
  (`ControllerInstallationPredicate`),
* `pkg/gardenlet/controller/networkpolicy/add.go` (`ClusterPredicate`),
* `pkg/controllermanager/controller/project/activity/add.go`
  (`OnlyNewlyCreatedObjects`, `NeedsSecretBindingReferenceLabelPredicate`).

The task-graph engine `pkg/utils/flow` is not among the sources at hand; the
parts of it that are needed are modelled from the specification and marked so.
-/

namespace Gardener

/-! ## The task graph engine (`flow`) -/

namespace flow

/-- Modelled from the spec: type `flow.TaskID` (package `pkg/utils/flow` is not
among the sources). Identifier of a task inside one graph: the builder hands
them out from "its own ID sequence", and they are "used purely as opaque
dependency tokens". -/
abbrev TaskID := Nat

/-- Modelled from the spec: type `flow.TaskIDs`, the "set of references to
previously-added tasks" that `flow.NewTaskIDs` builds. -/
abbrev TaskIDs := List TaskID

/-- Modelled from the spec: `flow.NewTaskIDs(ids...)`, "convenience aggregation
of dependency references; empty set denotes no prerequisites". -/
def NewTaskIDs (ids : List TaskID) : TaskIDs := ids

/-- Modelled from the spec: type `flow.TaskFn`. The action is played by a
collaborator, so only the name written in the source is kept, together with the
optional retry policy "(interval, timeout)", in seconds. -/
structure TaskFn where
  action : String
  retry : Option (Nat × Nat) := none
deriving DecidableEq, Repr

/-- Modelled from the spec: `flow.TaskFn(f).RetryUntilTimeout(interval, timeout)`
attaches the retry-until-timeout policy to the task function. -/
def TaskFn.RetryUntilTimeout (fn : TaskFn) (interval timeout : Nat) : TaskFn :=
  { fn with retry := some (interval, timeout) }

/-- Modelled from the spec: struct `flow.Task`, with the three fields that the
literals of `runForceDeleteShootFlow` write (`Name`, `Fn`, `Dependencies`) and
`SkipIf`, which none of them sets. -/
structure Task where
  Name : String
  Fn : TaskFn
  Dependencies : TaskIDs := []
  SkipIf : Bool := false
deriving DecidableEq, Repr

/-- Modelled from the spec: type `flow.Graph`, the graph under construction. Its
name and the tasks added so far, in the order of the `Add` calls, each with the
identifier `Add` returned for it. -/
structure Graph where
  name : String
  tasks : List (TaskID × Task) := []
deriving DecidableEq, Repr

/-- Modelled from the spec: `flow.NewGraph(name)`, the empty graph with the given
name. -/
def NewGraph (name : String) : Graph := { name := name }

/-- Modelled from the spec: `flow.Graph.Add` (package `pkg/utils/flow` is not
among the sources). "registers a task, returns a stable identifier usable as a
dependency reference by subsequently added tasks. Fails (construction-time
panic/error) if the task's declared dependencies reference unknown identifiers";
the builder owns its own identifier sequence, so the identifier is the number of
tasks added before. The failure is `none`. -/
def Graph.Add (g : Graph) (t : Task) : Option (Graph × TaskID) :=
  if t.Dependencies.all (fun d => (g.tasks.map Prod.fst).contains d) then
    some ({ g with tasks := g.tasks ++ [(g.tasks.length, t)] }, g.tasks.length)
  else
    none

/-- Construction of a graph by successive `Add` calls on the same graph `g`:
the graph is threaded through, a failing `Add` aborts the construction. -/
def Builder (α : Type) : Type := Graph → Option (α × Graph)

/-- Sequencing of two construction steps. -/
@[noinline]
def Builder.bind {α β : Type} (x : Builder α) (f : α → Builder β) : Builder β :=
  fun g =>
    match x g with
    | some (a, g1) => f a g1
    | none => none

instance : Monad Builder where
  pure a := fun g => some (a, g)
  bind := Builder.bind

/-- The call `g.Add(task)` inside a construction. -/
@[noinline]
def Builder.Add (t : Task) : Builder TaskID :=
  fun g => (g.Add t).map (fun r => (r.2, r.1))

/-- Graph left by a construction started from `g`. -/
def Builder.run (b : Builder Unit) (g : Graph) : Option Graph :=
  (b g).map Prod.snd

/-- Modelled from the spec: one node of the compiled plan, "a directed acyclic
graph over Task identifiers with resolved predecessor/successor adjacency". -/
structure Node where
  id : TaskID
  name : String
  fn : TaskFn
  skipIf : Bool
  predecessors : List TaskID
  successors : List TaskID
deriving DecidableEq, Repr

/-- Modelled from the spec: type `flow.Flow`, the compiled, immutable plan. -/
structure Flow where
  name : String
  nodes : List Node
deriving DecidableEq, Repr

/-- Modelled from the spec: the "defensive cycle check" of the compiler.
Repeatedly strike the tasks all of whose dependencies are already struck; a
graph in which this gets stuck has a cycle (or an unresolved reference). -/
def cycleFree : Nat → List (TaskID × Task) → List TaskID → Bool
  | _, [], _ => true
  | 0, _ :: _, _ => false
  | n + 1, e :: rest, done =>
    let ready := (e :: rest).filter (fun p => p.2.Dependencies.all (fun d => done.contains d))
    let blocked := (e :: rest).filter (fun p => !(p.2.Dependencies.all (fun d => done.contains d)))
    if ready.isEmpty then false else cycleFree n blocked (done ++ ready.map Prod.fst)

/-- Modelled from the spec: `flow.Graph.Compile` (package `pkg/utils/flow` is
not among the sources). "Builds predecessor/successor adjacency from the
recorded dependency sets ... additionally performs a defensive cycle check";
every identifier referenced as a dependency must resolve to exactly one task.
A violated invariant is `none`. The diagnostic layer numbers are not kept: they
take no part in scheduling. -/
def Graph.Compile (g : Graph) : Option Flow :=
  let ids := g.tasks.map Prod.fst
  if g.tasks.all (fun e => e.2.Dependencies.all (fun d => ids.count d == 1))
      && cycleFree g.tasks.length g.tasks [] then
    some
      { name := g.name
        nodes := g.tasks.map (fun e =>
          { id := e.1
            name := e.2.Name
            fn := e.2.Fn
            skipIf := e.2.SkipIf
            predecessors := e.2.Dependencies
            successors := (g.tasks.filter (fun s => s.2.Dependencies.contains e.1)).map Prod.fst }) }
  else
    none

/-! ### Execution of a compiled plan -/

/-- Modelled from the spec: state of one task instance within a run, "Pending ->
Running -> {Succeeded, Failed}, or Pending -> Skipped (explicit SkipIf) or
Pending -> BlockedBySkip (upstream failure, no recovery path)". -/
inductive TaskState
  | Pending
  | Running
  | Succeeded
  | Failed
  | Skipped
  | BlockedBySkip
deriving DecidableEq, Repr

/-- Modelled from the spec: terminal error of a task, by the taxonomy of the
specification: permanent task error, timeout error, cancellation error. A
transient error is retried inside `Running` and is not observable. -/
inductive TaskError
  | permanent
  | timeout
  | cancelled
deriving DecidableEq, Repr

/-- Modelled from the spec: entry of the aggregated error, the name of the failing
task and its cause. -/
structure NamedError where
  taskName : String
  cause : TaskError
deriving DecidableEq, Repr

/-- Modelled from the spec: the Run, mutable state of one execution. The state of
every task, the errors collected so far "by task completion time", and whether
the context was cancelled. -/
structure Run where
  states : List (TaskID × TaskState)
  errors : List NamedError
  cancelled : Bool
deriving DecidableEq, Repr

/-- Modelled from the spec: the state table of a Run in which task `t` has moved
to state `s`. -/
def setState (t : TaskID) (s : TaskState) : List (TaskID × TaskState) → List (TaskID × TaskState)
  | [] => []
  | p :: ps => (if p.1 = t then (p.1, s) else p) :: setState t s ps

/-- Modelled from the spec: current state of task `t` in a Run, if the plan has
such a task. -/
def Run.stateOf (r : Run) (t : TaskID) : Option TaskState := r.states.lookup t

/-- Modelled from the spec: node of the plan with identifier `t`. -/
def Flow.node (f : Flow) (t : TaskID) : Option Node := f.nodes.find? (fun n => n.id == t)

/-- Modelled from the spec: start of a run, where every task is `Pending` and
nothing is collected. -/
def Run.init (f : Flow) : Run :=
  { states := f.nodes.map (fun n => (n.id, TaskState.Pending)), errors := [], cancelled := false }

/-- Modelled from the spec: dependency `d` "reached a terminal success-or-skip
state". -/
def Run.satisfied (r : Run) (d : TaskID) : Bool :=
  r.stateOf d == some TaskState.Succeeded || r.stateOf d == some TaskState.Skipped

/-- Modelled from the spec: dependency `d` failed terminally or is itself blocked
by a failed ancestor. -/
def Run.broken (r : Run) (d : TaskID) : Bool :=
  r.stateOf d == some TaskState.Failed || r.stateOf d == some TaskState.BlockedBySkip

/-- Modelled from the spec: what can happen during a run. The coordinator
launches a ready task, marks a ready task with `SkipIf` as skipped, or records a
task as blocked by an upstream failure; a running task terminates with success
(`none`) or with its terminal error; the caller cancels the context. -/
inductive Event
  | launch (t : TaskID)
  | finish (t : TaskID) (err : Option TaskError)
  | skip (t : TaskID)
  | block (t : TaskID)
  | cancel
deriving DecidableEq, Repr

/-- Modelled from the spec: one transition of the Executor of `pkg/utils/flow`
(not among the sources). A task is launched only when it is `Pending`, the
context is not cancelled and "all its dependencies have completed
successfully" (terminal success-or-skip state); with `SkipIf` it is "marked
skipped without invoking Action"; it is "blocked indefinitely (never scheduled)
if any dependency fails terminally and the task has no SkipIf-driven bypass";
a running task ends `Succeeded` or `Failed`, and a failure adds one entry, tagged
with the task name, to the aggregated error; after cancellation the Executor
"stops launching new tasks". An event that is not possible in the state is
`none`. -/
def step (f : Flow) (r : Run) : Event → Option Run
  | Event.launch t =>
    match f.node t with
    | none => none
    | some n =>
      if r.stateOf t = some TaskState.Pending ∧ r.cancelled = false ∧ n.skipIf = false
          ∧ n.predecessors.all r.satisfied = true then
        some { r with states := setState t TaskState.Running r.states }
      else none
  | Event.skip t =>
    match f.node t with
    | none => none
    | some n =>
      if r.stateOf t = some TaskState.Pending ∧ r.cancelled = false ∧ n.skipIf = true
          ∧ n.predecessors.all r.satisfied = true then
        some { r with states := setState t TaskState.Skipped r.states }
      else none
  | Event.block t =>
    match f.node t with
    | none => none
    | some n =>
      if r.stateOf t = some TaskState.Pending ∧ r.cancelled = false ∧ n.skipIf = false
          ∧ n.predecessors.any r.broken = true then
        some { r with states := setState t TaskState.BlockedBySkip r.states }
      else none
  | Event.finish t err =>
    match f.node t with
    | none => none
    | some n =>
      if r.stateOf t = some TaskState.Running then
        match err with
        | none => some { r with states := setState t TaskState.Succeeded r.states }
        | some c =>
          some { r with
            states := setState t TaskState.Failed r.states
            errors := r.errors ++ [{ taskName := n.name, cause := c }] }
      else none
  | Event.cancel => some { r with cancelled := true }

/-- Modelled from the spec: run state after the events `evs`, one after the
other; `none` when one of them is not possible where it stands. -/
def exec (f : Flow) : Run → List Event → Option Run
  | r, [] => some r
  | r, e :: es => (step f r e).bind (fun r1 => exec f r1 es)

/-- Modelled from the spec: run state in which the execution has ended, "the
ready set is empty and no tasks remain running" (after cancellation: no task
remains running). -/
def quiescent (f : Flow) (r : Run) : Bool :=
  r.states.all (fun p => p.2 != TaskState.Running) &&
    (r.cancelled || f.nodes.all (fun n =>
      (step f r (Event.launch n.id)).isNone && (step f r (Event.skip n.id)).isNone
        && (step f r (Event.block n.id)).isNone))

/-- Modelled from the spec: `Run(ctx, plan, options) -> AggregatedError` of
`pkg/utils/flow` (not among the sources), for the course of events `evs`
(scheduling order, outcomes of the actions, cancellation), which the engine
does not decide. The result is the aggregated error of the final state; `none`
when `evs` is not a complete execution of the plan. -/
def Flow.Run (f : Flow) (evs : List Event) : Option (List NamedError) :=
  match exec f (Run.init f) evs with
  | none => none
  | some r => if quiescent f r then some r.errors else none

end flow

/-! ## `runForceDeleteShootFlow`: the graph -/

namespace shoot

open flow

/-- Value of `defaultInterval`, in seconds. -/
def defaultInterval : Nat := 5

/-- Value of `defaultTimeout`, in seconds. -/
def defaultTimeout : Nat := 30

/-- Task graph that `runForceDeleteShootFlow` builds (lines 86 to 189): the
twenty-one `g.Add` calls in source order, each binding the returned identifier
to the variable of the source. -/
def forceDeleteTasks : Builder Unit := do
  let deleteControlPlanes ← Builder.Add
    { Name := "Deleting ControlPlane resources"
      Fn := TaskFn.RetryUntilTimeout { action := "cleaner.DeleteControlPlanes" } defaultInterval defaultTimeout }
  let waitUntilControlPlanesDeleted ← Builder.Add
    { Name := "Waiting until ControlPlane resources have been deleted"
      Fn := { action := "cleaner.WaitUntilControlPlanesDeleted" }
      Dependencies := NewTaskIDs [deleteControlPlanes] }
  let deleteDNSRecords ← Builder.Add
    { Name := "Deleting DNSRecord resources"
      Fn := TaskFn.RetryUntilTimeout { action := "cleaner.DeleteDNSRecords" } defaultInterval defaultTimeout }
  let waitUntilDNSRecordsDeleted ← Builder.Add
    { Name := "Waiting until DNSRecord resources have been deleted"
      Fn := { action := "cleaner.WaitUntilDNSRecordsDeleted" }
      Dependencies := NewTaskIDs [deleteDNSRecords] }
  let deleteExtensionObjects ← Builder.Add
    { Name := "Deleting extension resources"
      Fn := TaskFn.RetryUntilTimeout { action := "cleaner.DeleteExtensionObjects" } defaultInterval defaultTimeout }
  let waitUntilExtensionObjectsDeleted ← Builder.Add
    { Name := "Waiting until extension resources have been deleted"
      Fn := { action := "cleaner.WaitUntilExtensionObjectsDeleted" }
      Dependencies := NewTaskIDs [deleteExtensionObjects] }
  let deleteMCMResources ← Builder.Add
    { Name := "Deleting MCM resources"
      Fn := TaskFn.RetryUntilTimeout { action := "cleaner.DeleteMCMResources" } defaultInterval defaultTimeout }
  let waitUntilMCMResourcesDeleted ← Builder.Add
    { Name := "Waiting until MCM resources have been deleted"
      Fn := { action := "cleaner.WaitUntilMCMResourcesDeleted" }
      Dependencies := NewTaskIDs [deleteMCMResources] }
  let deleteBackupEntry ← Builder.Add
    { Name := "Deleting BackupEntry resource"
      Fn := TaskFn.RetryUntilTimeout { action := "cleaner.DeleteBackupEntry" } defaultInterval defaultTimeout }
  let waitUntilBackupEntryDeleted ← Builder.Add
    { Name := "Waiting until BackupEntry resource has been deleted"
      Fn := { action := "cleaner.WaitUntilBackupEntryDeleted" }
      Dependencies := NewTaskIDs [deleteBackupEntry] }
  let deleteCluster ← Builder.Add
    { Name := "Deleting Cluster resource"
      Fn := TaskFn.RetryUntilTimeout { action := "cleaner.DeleteCluster" } defaultInterval defaultTimeout
      Dependencies := NewTaskIDs [waitUntilExtensionObjectsDeleted, waitUntilBackupEntryDeleted,
        waitUntilControlPlanesDeleted, waitUntilDNSRecordsDeleted] }
  let _ ← Builder.Add
    { Name := "Waiting until Cluster resource has been deleted"
      Fn := { action := "cleaner.WaitUntilClusterDeleted" }
      Dependencies := NewTaskIDs [deleteCluster] }
  let setKeepObjectsForManagedResources ← Builder.Add
    { Name := "Configuring managed resources to keep their objects when deleted"
      Fn := TaskFn.RetryUntilTimeout { action := "cleaner.SetKeepObjectsForManagedResources" }
        defaultInterval defaultTimeout
      Dependencies := NewTaskIDs [] }
  let deleteManagedResources ← Builder.Add
    { Name := "Deleting managed resources"
      Fn := TaskFn.RetryUntilTimeout { action := "cleaner.DeleteManagedResources" } defaultInterval defaultTimeout
      Dependencies := NewTaskIDs [setKeepObjectsForManagedResources] }
  let waitUntilManagedResourcesDeleted ← Builder.Add
    { Name := "Waiting until managed resources have been deleted"
      Fn := { action := "cleaner.WaitUntilManagedResourcesDeleted" }
      Dependencies := NewTaskIDs [deleteManagedResources] }
  let deleteEtcds ← Builder.Add
    { Name := "Deleting Etcd resources"
      Fn := TaskFn.RetryUntilTimeout { action := "botanist.DestroyEtcd" } defaultInterval defaultTimeout
      Dependencies := NewTaskIDs [] }
  let waitUntilEtcdsDeleted ← Builder.Add
    { Name := "Waiting until Etcd resources have been deleted"
      Fn := { action := "botanist.WaitUntilEtcdsDeleted" }
      Dependencies := NewTaskIDs [deleteEtcds] }
  let deleteSecrets ← Builder.Add
    { Name := "Deleting secrets"
      Fn := TaskFn.RetryUntilTimeout { action := "cleaner.DeleteSecrets" } defaultInterval defaultTimeout
      Dependencies := NewTaskIDs [waitUntilExtensionObjectsDeleted, waitUntilEtcdsDeleted,
        waitUntilMCMResourcesDeleted, waitUntilManagedResourcesDeleted] }
  let deleteNamespace ← Builder.Add
    { Name := "Deleting shoot namespace"
      Fn := TaskFn.RetryUntilTimeout { action := "botanist.DeleteSeedNamespace" } defaultInterval defaultTimeout
      Dependencies := NewTaskIDs [waitUntilExtensionObjectsDeleted, waitUntilEtcdsDeleted,
        waitUntilMCMResourcesDeleted, waitUntilManagedResourcesDeleted, deleteSecrets] }
  let _ ← Builder.Add
    { Name := "Waiting until shoot namespace has been deleted"
      Fn := { action := "botanist.WaitUntilSeedNamespaceDeleted" }
      Dependencies := NewTaskIDs [deleteNamespace] }
  let _ ← Builder.Add
    { Name := "Deleting Shoot State"
      Fn := { action := "shootstate.Delete" }
      Dependencies := NewTaskIDs [deleteNamespace] }
  return ()

/-- Graph `g` of `runForceDeleteShootFlow`: `flow.NewGraph` followed by the
`g.Add` calls. -/
def forceDeleteGraph : Option Graph :=
  forceDeleteTasks.run (NewGraph "Shoot cluster force deletion")

/-- Compiled flow of `runForceDeleteShootFlow` (`f = g.Compile()`, line 191). -/
def forceDeleteFlow : Option Flow := forceDeleteGraph.bind Graph.Compile

/-! ## `runForceDeleteShootFlow`: the control flow -/

/-- Go `error` value, by its message. -/
abbrev Error := String

/-- Entry of the Shoot's `status.lastErrors` (`gardencorev1beta1.LastError`):
the description and the optional `TaskID`, a nil pointer being `none`. -/
structure LastError where
  Description : String
  TaskID : Option String := none
deriving DecidableEq, Repr

/-- Error context created by `errors.NewErrorContext(name, lastErrorIDs)`; the
package `pkg/utils/errors` is not among the sources, the context is kept as the
two arguments it was created from. -/
structure ErrorContext where
  name : String
  lastErrorIDs : List String
deriving DecidableEq, Repr

/-- Creation of the error context from its two arguments
(`errors.NewErrorContext`). -/
def NewErrorContext (name : String) (lastErrorIDs : List String) : ErrorContext :=
  { name := name, lastErrorIDs := lastErrorIDs }

/-- Loop of lines 43 to 47: `tasksWithErrors` starts empty and every entry of
`status.lastErrors` with a non-nil `TaskID` appends that identifier. -/
def tasksWithErrors (lastErrors : List LastError) : List String :=
  lastErrors.foldl
    (fun acc lastError =>
      match lastError.TaskID with
      | some taskID => acc ++ [taskID]
      | none => acc)
    []

/-- Value behind the pointer `*v1beta1helper.WrappedLastErrors`: the description
and the error it was built from. -/
structure WrappedLastErrors where
  Description : String
  err : Error
deriving DecidableEq, Repr

/-- Helper functions that `runForceDeleteShootFlow` calls and that are not among
the sources: `v1beta1helper.FormatLastErrDescription`,
`v1beta1helper.NewWrappedLastErrors` (its result is a pointer, `none` for nil)
and `flow.Errors`. -/
structure Helpers where
  FormatLastErrDescription : Error → String
  NewWrappedLastErrors : String → Error → Option WrappedLastErrors
  flowErrors : Error → Error

/-- Answers of the collaborators during one call of `runForceDeleteShootFlow`:
the error returned by `errors.HandleErrors` for the three pre-flight steps, the
error returned by `f.Run`, the error returned by
`o.ShootClientMap.InvalidateClient`; `none` is a nil error. -/
structure Collaborators where
  handleErrors : ErrorContext → Option Error
  flowRun : Flow → ErrorContext → Option Error
  invalidateClient : Option Error

/-- Calls to the collaborators that `runForceDeleteShootFlow` makes, with the
error context (and the flow) handed over. -/
inductive Call
  | HandleErrors (errorContext : ErrorContext)
  | Run (f : Flow) (errorContext : ErrorContext)
  | InvalidateClient
  | LogSuccess
deriving DecidableEq, Repr

/-- How a call of `runForceDeleteShootFlow` ends: it returns a pointer (`none`
for nil), or the construction of the graph panics. -/
inductive Return
  | value (result : Option WrappedLastErrors)
  | panicked
deriving DecidableEq, Repr

/-- Function `runForceDeleteShootFlow` (lines 36 to 211): what it returns and the
calls it made, in order. -/
def runForceDeleteShootFlow (h : Helpers) (o : Collaborators) (lastErrors : List LastError) :
    Return × List Call :=
  let errorContext := NewErrorContext "Shoot cluster force deletion" (tasksWithErrors lastErrors)
  match o.handleErrors errorContext with
  | some err =>
    (Return.value (h.NewWrappedLastErrors (h.FormatLastErrDescription err) err),
      [Call.HandleErrors errorContext])
  | none =>
    match forceDeleteFlow with
    | none => (Return.panicked, [Call.HandleErrors errorContext])
    | some f =>
      match o.flowRun f errorContext with
      | some err =>
        (Return.value (h.NewWrappedLastErrors (h.FormatLastErrDescription err) (h.flowErrors err)),
          [Call.HandleErrors errorContext, Call.Run f errorContext])
      | none =>
        match o.invalidateClient with
        | some err0 =>
          let err := "failed to invalidate shoot client: " ++ err0
          (Return.value (h.NewWrappedLastErrors (h.FormatLastErrDescription err) err),
            [Call.HandleErrors errorContext, Call.Run f errorContext, Call.InvalidateClient])
        | none =>
          (Return.value none,
            [Call.HandleErrors errorContext, Call.Run f errorContext, Call.InvalidateClient,
              Call.LogSuccess])

end shoot

/-! ## The diamond graph -/

namespace diamond

open flow

/-- Diamond graph "A→{B,C}→D" of the specification: B and C depend on A, D
depends on both B and C. -/
def tasks : Builder Unit := do
  let a ← Builder.Add { Name := "A", Fn := { action := "A" } }
  let b ← Builder.Add { Name := "B", Fn := { action := "B" }, Dependencies := NewTaskIDs [a] }
  let c ← Builder.Add { Name := "C", Fn := { action := "C" }, Dependencies := NewTaskIDs [a] }
  let _ ← Builder.Add { Name := "D", Fn := { action := "D" }, Dependencies := NewTaskIDs [b, c] }
  return ()

/-- The diamond graph, built. -/
def graph : Option Graph := tasks.run (NewGraph "diamond")

/-- The diamond graph, compiled. -/
def compiled : Option Flow := graph.bind Graph.Compile

/-- Identifier of task A in the diamond. -/
abbrev A : TaskID := 0

/-- Identifier of task B in the diamond. -/
abbrev B : TaskID := 1

/-- Identifier of task C in the diamond. -/
abbrev C : TaskID := 2

/-- Identifier of task D in the diamond. -/
abbrev D : TaskID := 3

/-- The compiled diamond, written out. -/
def plan : Flow :=
  { name := "diamond"
    nodes :=
      [ { id := 0, name := "A", fn := { action := "A" }, skipIf := false,
          predecessors := [], successors := [1, 2] },
        { id := 1, name := "B", fn := { action := "B" }, skipIf := false,
          predecessors := [0], successors := [3] },
        { id := 2, name := "C", fn := { action := "C" }, skipIf := false,
          predecessors := [0], successors := [3] },
        { id := 3, name := "D", fn := { action := "D" }, skipIf := false,
          predecessors := [1, 2], successors := [] } ] }

/-- Entry of the aggregated error for a permanent failure of B. -/
def errB : NamedError := { taskName := "B", cause := TaskError.permanent }

/-- What holds of every state of a run of the diamond in which the context is
not cancelled, B can only fail permanently and the other tasks can only
succeed, together with the events `hist` that led to it. -/
structure Inv (r : Run) (hist : List Event) : Prop where
  notCancelled : r.cancelled = false
  stA : r.stateOf 0 = some TaskState.Pending ∨ r.stateOf 0 = some TaskState.Running
    ∨ r.stateOf 0 = some TaskState.Succeeded
  stB : r.stateOf 1 = some TaskState.Pending ∨ r.stateOf 1 = some TaskState.Running
    ∨ r.stateOf 1 = some TaskState.Failed
  stC : r.stateOf 2 = some TaskState.Pending ∨ r.stateOf 2 = some TaskState.Running
    ∨ r.stateOf 2 = some TaskState.Succeeded
  stD : r.stateOf 3 = some TaskState.Pending ∨ r.stateOf 3 = some TaskState.BlockedBySkip
  afterA_B : r.stateOf 1 ≠ some TaskState.Pending → r.stateOf 0 = some TaskState.Succeeded
  afterA_C : r.stateOf 2 ≠ some TaskState.Pending → r.stateOf 0 = some TaskState.Succeeded
  errs : r.errors = if r.stateOf 1 = some TaskState.Failed then [errB] else []
  launchedC : r.stateOf 2 ≠ some TaskState.Pending → Event.launch 2 ∈ hist
  finishedC : r.stateOf 2 = some TaskState.Succeeded → Event.finish 2 none ∈ hist
  blockedD : r.stateOf 3 = some TaskState.BlockedBySkip → Event.block 3 ∈ hist
  failedB : r.stateOf 1 = some TaskState.Failed →
    Event.finish 1 (some TaskError.permanent) ∈ hist
  neverD : Event.launch 3 ∉ hist

end diamond

/-! ## Watch predicates -/

namespace predicate

/-- Create event of controller-runtime (`event.TypedCreateEvent[T]`); `T` is the
object type of the instantiation, a pointer type in the callers. -/
structure TypedCreateEvent (T : Type) where
  Object : T

/-- Update event of controller-runtime (`event.TypedUpdateEvent[T]`). -/
structure TypedUpdateEvent (T : Type) where
  ObjectOld : T
  ObjectNew : T

/-- Delete event of controller-runtime (`event.TypedDeleteEvent[T]`). -/
structure TypedDeleteEvent (T : Type) where
  Object : T
  DeleteStateUnknown : Bool := false

/-- Generic event of controller-runtime (`event.TypedGenericEvent[T]`). -/
structure TypedGenericEvent (T : Type) where
  Object : T

/-- Interface `predicate.TypedPredicate[T]` of controller-runtime: the four
methods. -/
structure TypedPredicate (T : Type) where
  Create : TypedCreateEvent T → Bool
  Update : TypedUpdateEvent T → Bool
  Delete : TypedDeleteEvent T → Bool
  Generic : TypedGenericEvent T → Bool

/-- Struct `predicate.TypedFuncs[T]` of controller-runtime: four optional
functions, `none` for a field left unset. -/
structure TypedFuncs (T : Type) where
  CreateFunc : Option (TypedCreateEvent T → Bool) := none
  UpdateFunc : Option (TypedUpdateEvent T → Bool) := none
  DeleteFunc : Option (TypedDeleteEvent T → Bool) := none
  GenericFunc : Option (TypedGenericEvent T → Bool) := none

/-- Methods of `predicate.TypedFuncs[T]` in controller-runtime: each calls its
function when it is set and returns `true` otherwise. -/
def TypedFuncs.toPredicate {T : Type} (p : TypedFuncs T) : TypedPredicate T :=
  { Create := fun e => match p.CreateFunc with
      | some fn => fn e
      | none => true
    Update := fun e => match p.UpdateFunc with
      | some fn => fn e
      | none => true
    Delete := fun e => match p.DeleteFunc with
      | some fn => fn e
      | none => true
    Generic := fun e => match p.GenericFunc with
      | some fn => fn e
      | none => true }

/-- Type `EventType` ("an alias for byte"). -/
abbrev EventType := Nat

/-- Constant `Create` (`iota` 0). -/
def Create : EventType := 0

/-- Constant `Update` (`iota` 1). -/
def Update : EventType := 1

/-- Constant `Delete` (`iota` 2). -/
def Delete : EventType := 2

/-- Constant `Generic` (`iota` 3). -/
def Generic : EventType := 3

/-- Closure `has` of `TypedForEventTypes` and of `ForEventTypes`: the loop over
`events` returns `true` at the first element equal to `event`, and `false` after
the last. -/
def has (events : List EventType) (event : EventType) : Bool :=
  match events with
  | [] => false
  | e :: rest => if e == event then true else has rest event

/-- Function `TypedForEventTypes` (lines 58 to 74). -/
def TypedForEventTypes {T : Type} (events : List EventType) : TypedPredicate T :=
  TypedFuncs.toPredicate
    { CreateFunc := some (fun _ => has events Create)
      UpdateFunc := some (fun _ => has events Update)
      DeleteFunc := some (fun _ => has events Delete)
      GenericFunc := some (fun _ => has events Generic) }

/-- Function `ForEventTypes` (lines 77 to 93); `predicate.Funcs` is
`TypedFuncs` at the object type `client.Object`, here `O`. -/
def ForEventTypes {O : Type} (events : List EventType) : TypedPredicate O :=
  TypedFuncs.toPredicate
    { CreateFunc := some (fun _ => has events Create)
      UpdateFunc := some (fun _ => has events Update)
      DeleteFunc := some (fun _ => has events Delete)
      GenericFunc := some (fun _ => has events Generic) }

/-- Loop of `TypedEvalGeneric` over the predicates, for the event `e`. -/
def evalGenericLoop {T : Type} (e : TypedGenericEvent T) : List (TypedPredicate T) → Bool
  | [] => true
  | p :: rest => if !p.Generic e then false else evalGenericLoop e rest

/-- Function `TypedEvalGeneric` (lines 96 to 105). -/
def TypedEvalGeneric {T : Type} (obj : T) (predicates : List (TypedPredicate T)) : Bool :=
  let e : TypedGenericEvent T := { Object := obj }
  evalGenericLoop e predicates

/-- Type `gardencorev1beta1.LastOperationType`, a string. -/
abbrev LastOperationType := String

/-- Type `gardencorev1beta1.LastOperationState`, a string. -/
abbrev LastOperationState := String

/-- Constants of `pkg/apis/core/v1beta1` that the predicates compare with. Their
declarations are not among the sources, so they are parameters of the
definitions that read them. -/
structure Constants where
  LastOperationTypeDelete : LastOperationType
  LastOperationStateProcessing : LastOperationState
  LastOperationStateSucceeded : LastOperationState

/-- Struct `zone` of Go's package `time`: one time zone of a location. -/
structure Zone where
  name : String := ""
  offset : Int := 0
  isDST : Bool := false
deriving DecidableEq, Repr

/-- Struct `zoneTrans` of Go's package `time`: one zone transition of a
location. -/
structure ZoneTrans where
  when : Int := 0
  index : Nat := 0
  isstd : Bool := false
  isutc : Bool := false
deriving DecidableEq, Repr

/-- Struct `time.Location` of Go, with its unexported fields; a nil slice or
pointer is `none`. -/
structure Location where
  name : String := ""
  zone : Option (List Zone) := none
  tx : Option (List ZoneTrans) := none
  extend : String := ""
  cacheStart : Int := 0
  cacheEnd : Int := 0
  cacheZone : Option Zone := none
deriving DecidableEq, Repr

/-- Struct `time.Time` of Go, wrapped by `metav1.Time`, with its three
unexported fields: the packed wall clock reading `wall`, the extended reading
`ext` and the location pointer `loc`. `reflect.DeepEqual` compares these fields,
so two values for the same instant can be unequal. -/
structure Time where
  wall : Nat := 0
  ext : Int := 0
  loc : Option Location := none
deriving DecidableEq, Repr

/-- Struct `gardencorev1beta1.LastOperation` (declared in `pkg/apis/core/v1beta1`);
`LastUpdateTime` is a `metav1.Time`, and `Type_` stands for the field `Type`. -/
structure LastOperation where
  Description : String := ""
  LastUpdateTime : Time := {}
  Progress : Int := 0
  State : LastOperationState := ""
  Type_ : LastOperationType := ""
deriving DecidableEq, Repr

/-- Function `ReconciliationFinishedSuccessfully` (lines 213 to 220); a nil
pointer is `none`. -/
def ReconciliationFinishedSuccessfully (k : Constants)
    (oldLastOperation newLastOperation : Option LastOperation) : Bool :=
  match oldLastOperation with
  | none => false
  | some old =>
    old.Type_ != k.LastOperationTypeDelete &&
      old.State == k.LastOperationStateProcessing &&
      (match newLastOperation with
        | none => false
        | some new =>
          new.Type_ != k.LastOperationTypeDelete &&
            new.State == k.LastOperationStateSucceeded)

/-- Function `v1beta1helper.IsNil` applied to a pointer: whether it is nil, as the
reflection check `isNil` of `pkg/controllermanager/controller/bastion/add.go`
answers for a pointer. -/
def IsNil {α : Type} (p : Option α) : Bool := p.isNone

end predicate

/-! ## Seed care controller -/

namespace seedcare

open predicate

/-- Part of `gardencorev1beta1.SeedStatus` that the predicate reads. -/
structure SeedStatus where
  LastOperation : Option LastOperation := none
deriving DecidableEq, Repr

/-- Part of `gardencorev1beta1.Seed` that the predicate reads. -/
structure Seed where
  Status : SeedStatus := {}
deriving DecidableEq, Repr

/-- Method `Reconciler.SeedPredicate` (add.go, lines 82 to 101); the object type
is the pointer `*gardencorev1beta1.Seed`. -/
def SeedPredicate (k : Constants) : TypedPredicate (Option Seed) :=
  TypedFuncs.toPredicate
    { CreateFunc := some (fun _ => true)
      UpdateFunc := some (fun e =>
        if IsNil e.ObjectNew then false
        else if IsNil e.ObjectOld then false
        else
          match e.ObjectOld, e.ObjectNew with
          | some objectOld, some objectNew =>
            ReconciliationFinishedSuccessfully k objectOld.Status.LastOperation
              objectNew.Status.LastOperation
          | _, _ => false)
      DeleteFunc := some (fun _ => false)
      GenericFunc := some (fun _ => false) }

end seedcare

/-! ## Shoot state controller -/

namespace shootstate

open predicate

/-- Part of `gardencorev1beta1.ShootSpec` that the predicate reads. -/
structure ShootSpec where
  SeedName : Option String := none
deriving DecidableEq, Repr

/-- Part of `gardencorev1beta1.Shoot` that the predicate reads. -/
structure Shoot where
  Spec : ShootSpec := {}
deriving DecidableEq, Repr

/-- Function `ptr.Deref(p, def)` of `k8s.io/utils/ptr`. -/
def Deref {α : Type} (p : Option α) (default : α) : α :=
  match p with
  | some v => v
  | none => default

/-- Method `Reconciler.SeedNameChangedPredicate` (add.go, lines 57 to 71): only
`UpdateFunc` is set. -/
def SeedNameChangedPredicate : TypedPredicate (Option Shoot) :=
  TypedFuncs.toPredicate
    { UpdateFunc := some (fun e =>
        if IsNil e.ObjectNew then false
        else if IsNil e.ObjectOld then false
        else
          match e.ObjectNew, e.ObjectOld with
          | some objectNew, some objectOld =>
            Deref objectNew.Spec.SeedName "" != Deref objectOld.Spec.SeedName ""
          | _, _ => false) }

end shootstate

/-! ## Watch predicates on conditions and last operations -/

namespace predicate

/-- Go `map[string]string` (labels, annotations): its entries, looked up by key. -/
abbrev StringMap := List (String × String)

/-- Index expression `m[key]` on a `map[string]string`: the value stored under
the key, the empty string when the key is absent. -/
def mapIndex (m : StringMap) (key : String) : String :=
  match m.lookup key with
  | some v => v
  | none => ""

/-- Second result of the index expression `_, ok := m[key]`: whether the key is
present. -/
def mapHas (m : StringMap) (key : String) : Bool :=
  match m.lookup key with
  | some _ => true
  | none => false

/-- Type `gardencorev1beta1.ConditionType`, a string. -/
abbrev ConditionType := String

/-- Type `gardencorev1beta1.ConditionStatus`, a string. -/
abbrev ConditionStatus := String

/-- Struct `gardencorev1beta1.Condition` (declared in `pkg/apis/core/v1beta1`);
times in seconds, and `Type_` for the field `Type`. -/
structure Condition where
  Type_ : ConditionType := ""
  Status : ConditionStatus := ""
  LastTransitionTime : Int := 0
  LastUpdateTime : Int := 0
  Reason : String := ""
  Message : String := ""
  Codes : List String := []
deriving DecidableEq, Repr

/-- Closure `wasConditionStatusReasonOrMessageUpdated` of
`RelevantConditionsChanged` (lines 125 to 130); a nil pointer is `none`. -/
def wasConditionStatusReasonOrMessageUpdated (oldCondition newCondition : Option Condition) :
    Bool :=
  (oldCondition.isNone && newCondition.isSome) ||
    (oldCondition.isSome && newCondition.isNone) ||
    (match oldCondition, newCondition with
      | some o, some n => o.Status != n.Status || o.Reason != n.Reason || o.Message != n.Message
      | _, _ => false)

/-- Loop of the `UpdateFunc` of `RelevantConditionsChanged` (lines 139 to 148)
over the relevant condition types. The helper `v1beta1helper.GetCondition` is
not among the sources and is the parameter `GetCondition`. -/
def relevantConditionsLoop (GetCondition : List Condition → ConditionType → Option Condition)
    (oldConditions newConditions : List Condition) : List ConditionType → Bool
  | [] => false
  | condition :: rest =>
    if wasConditionStatusReasonOrMessageUpdated
        (GetCondition oldConditions condition) (GetCondition newConditions condition) then
      true
    else relevantConditionsLoop GetCondition oldConditions newConditions rest

/-- Function `RelevantConditionsChanged` (lines 121 to 151): only `UpdateFunc`
is set. -/
def RelevantConditionsChanged {T : Type}
    (GetCondition : List Condition → ConditionType → Option Condition)
    (getConditionsFromObject : T → List Condition)
    (relevantConditionTypes : List ConditionType) : TypedPredicate T :=
  TypedFuncs.toPredicate
    { UpdateFunc := some (fun e =>
        let oldConditions := getConditionsFromObject e.ObjectOld
        let newConditions := getConditionsFromObject e.ObjectNew
        relevantConditionsLoop GetCondition oldConditions newConditions relevantConditionTypes) }

/-- Part of `resourcesv1alpha1.ManagedResourceStatus` that the predicate reads. -/
structure ManagedResourceStatus where
  Conditions : List Condition := []
deriving DecidableEq, Repr

/-- Part of `resourcesv1alpha1.ManagedResource` that the predicate reads. -/
structure ManagedResource where
  Status : ManagedResourceStatus := {}
deriving DecidableEq, Repr

/-- Condition types `ResourcesApplied`, `ResourcesHealthy` and
`ResourcesProgressing` of `pkg/apis/resources/v1alpha1`. Their declarations are
not among the sources, so they are parameters. -/
structure ResourceConditionTypes where
  ResourcesApplied : ConditionType
  ResourcesHealthy : ConditionType
  ResourcesProgressing : ConditionType

/-- Function `ManagedResourceConditionsChanged` (lines 155 to 168), for events
that carry a ManagedResource (the type assertion of the source succeeds). -/
def ManagedResourceConditionsChanged
    (GetCondition : List Condition → ConditionType → Option Condition)
    (c : ResourceConditionTypes) : TypedPredicate ManagedResource :=
  RelevantConditionsChanged GetCondition
    (fun managedResource => managedResource.Status.Conditions)
    [c.ResourcesApplied, c.ResourcesHealthy, c.ResourcesProgressing]

/-- Further constants of `pkg/apis/core/v1beta1` and of its `constants` package
that `LastOperationChanged` compares with. Their declarations are not among the
sources, so they are parameters of the definitions that read them. -/
structure OperationConstants extends Constants where
  LastOperationStateError : LastOperationState
  LastOperationStateFailed : LastOperationState
  GardenerOperation : String
  GardenerOperationReconcile : String
  GardenerOperationMigrate : String
  GardenerOperationRestore : String

/-- Function `lastOperationStateFailed` (lines 222 to 228). -/
def lastOperationStateFailed (k : OperationConstants) (lastOperation : Option LastOperation) :
    Bool :=
  match lastOperation with
  | none => false
  | some op => op.State == k.LastOperationStateFailed

/-- Function `lastOperationStateChanged` (lines 230 to 245). `reflect.DeepEqual`
of two non-nil `*LastOperation` is deep equality of the two structs, field by
field, down to the unexported fields of the `time.Time` inside
`LastUpdateTime`: equality of the two records. -/
def lastOperationStateChanged (k : OperationConstants)
    (oldLastOp newLastOp : Option LastOperation) : Bool :=
  match newLastOp with
  | none => false
  | some new =>
    let newLastOperationStateSucceededOrErroneous :=
      new.State == k.LastOperationStateSucceeded || new.State == k.LastOperationStateError
        || new.State == k.LastOperationStateFailed
    if newLastOperationStateSucceededOrErroneous then
      match oldLastOp with
      | some old => !(decide (old = new))
      | none => true
    else false

/-- Function `LastOperationChanged` (lines 171 to 209). The object type `T` is
read through its method `GetAnnotations` and through `getLastOperation`; the
helper `v1beta1helper.HasOperationAnnotation` is not among the sources and is a
parameter. -/
def LastOperationChanged {T : Type} (k : OperationConstants)
    ( HasOperationAnnotation : StringMap → Bool) (GetAnnotations : T → StringMap)
    (getLastOperation : T → Option LastOperation) : TypedPredicate T :=
  TypedFuncs.toPredicate
    { CreateFunc := some (fun e =>
        if mapIndex (GetAnnotations e.Object) k.GardenerOperation == k.GardenerOperationReconcile then
          false
        else lastOperationStateFailed k (getLastOperation e.Object))
      UpdateFunc := some (fun e =>
        if HasOperationAnnotation (GetAnnotations e.ObjectNew) then
          let operation := mapIndex (GetAnnotations e.ObjectNew) k.GardenerOperation
          if operation != k.GardenerOperationMigrate && operation != k.GardenerOperationRestore then
            false
          else if mapIndex (GetAnnotations e.ObjectOld) k.GardenerOperation != operation then
            false
          else lastOperationStateChanged k (getLastOperation e.ObjectOld)
            (getLastOperation e.ObjectNew)
        else lastOperationStateChanged k (getLastOperation e.ObjectOld)
          (getLastOperation e.ObjectNew))
      DeleteFunc := some (fun _ => false)
      GenericFunc := some (fun _ => false) }

/-- Extension object as far as `LastOperationChanged` reads one: its annotations
and the last operation of its status. -/
structure ExtensionObject where
  Annotations : StringMap := []
  LastOperation : Option LastOperation := none
deriving DecidableEq, Repr

/-- Function `GetExtensionLastOperation` (lines 248 to 255) on an extension
object: the last operation of its status. -/
def GetExtensionLastOperation (obj : ExtensionObject) : Option LastOperation :=
  obj.LastOperation

/-- Values of the constants in Gardener's API packages, for concrete events.
The theorems hold for every choice of the constants. -/
def apiConstants : OperationConstants :=
  { LastOperationTypeDelete := "Delete"
    LastOperationStateProcessing := "Processing"
    LastOperationStateSucceeded := "Succeeded"
    LastOperationStateError := "Error"
    LastOperationStateFailed := "Failed"
    GardenerOperation := "gardener.cloud/operation"
    GardenerOperationReconcile := "reconcile"
    GardenerOperationMigrate := "migrate"
    GardenerOperationRestore := "restore" }

/-- Check that an object carries one of the three operation annotations, for
concrete events in place of the parameter `HasOperationAnnotation`. -/
def hasOperationAnnotation (k : OperationConstants) (annotations : StringMap) : Bool :=
  mapIndex annotations k.GardenerOperation == k.GardenerOperationReconcile
    || mapIndex annotations k.GardenerOperation == k.GardenerOperationRestore
    || mapIndex annotations k.GardenerOperation == k.GardenerOperationMigrate

/-- Methods of a `predicate.TypedFuncs[T]` value whose `UpdateFunc` reads its
objects before any nil check: `Update` is `none` when the call ends in a nil
pointer dereference. -/
structure TypedPredicateOrPanic (T : Type) where
  Create : TypedCreateEvent T → Bool
  Update : TypedUpdateEvent T → Option Bool
  Delete : TypedDeleteEvent T → Bool
  Generic : TypedGenericEvent T → Bool

/-- Function `ptr.Equal(a, b)` of `k8s.io/utils/ptr`: both nil, or both set to
equal values. -/
def ptrEqual {α : Type} [DecidableEq α] (a b : Option α) : Bool :=
  if a.isNone != b.isNone then false
  else
    match a, b with
    | some x, some y => decide (x = y)
    | _, _ => true

end predicate

/-! ## ControllerInstallation controller -/

namespace controllerinstallation

open predicate

/-- Struct `corev1.ObjectReference` of `k8s.io/api/core/v1`. -/
structure ObjectReference where
  Kind : String := ""
  Namespace : String := ""
  Name : String := ""
  UID : String := ""
  APIVersion : String := ""
  ResourceVersion : String := ""
  FieldPath : String := ""
deriving DecidableEq, Repr

/-- Part of `gardencorev1beta1.ControllerInstallationSpec` that the predicate
reads; `DeploymentRef` is a pointer. -/
structure ControllerInstallationSpec where
  RegistrationRef : ObjectReference := {}
  SeedRef : ObjectReference := {}
  DeploymentRef : Option ObjectReference := none
deriving DecidableEq, Repr

/-- Part of `gardencorev1beta1.ControllerInstallation` that the predicate reads:
`metadata.resourceVersion`, `metadata.deletionTimestamp` (a pointer, in
seconds) and the spec. -/
structure ControllerInstallation where
  ResourceVersion : String := ""
  DeletionTimestamp : Option Int := none
  Spec : ControllerInstallationSpec := {}
deriving DecidableEq, Repr

/-- Method `Reconciler.ControllerInstallationPredicate` (add.go, lines 73 to 97):
only `UpdateFunc` is set, so the other three methods answer true. `UpdateFunc`
calls `GetResourceVersion` on both objects first, which dereferences them:
with a nil object the call panics (`none`). `reflect.DeepEqual` of the two
`DeploymentRef` pointers is equality of the optional values. -/
def ControllerInstallationPredicate : TypedPredicateOrPanic (Option ControllerInstallation) :=
  { Create := fun _ => true
    Update := fun e =>
      match e.ObjectOld, e.ObjectNew with
      | some objectOld, some objectNew =>
        if objectOld.ResourceVersion == objectNew.ResourceVersion then some true
        else if IsNil e.ObjectNew then some false
        else if IsNil e.ObjectOld then some false
        else
          some ((objectOld.DeletionTimestamp.isNone && objectNew.DeletionTimestamp.isSome) ||
            !(decide (objectOld.Spec.DeploymentRef = objectNew.Spec.DeploymentRef)) ||
            objectOld.Spec.RegistrationRef.ResourceVersion
              != objectNew.Spec.RegistrationRef.ResourceVersion ||
            objectOld.Spec.SeedRef.ResourceVersion != objectNew.Spec.SeedRef.ResourceVersion)
      | _, _ => none
    Delete := fun _ => true
    Generic := fun _ => true }

end controllerinstallation

/-! ## NetworkPolicy controller -/

namespace networkpolicy

open predicate

/-- Part of `gardencorev1beta1.Networking` that the predicate reads: the three
CIDRs, each a `*string`. -/
structure Networking where
  Pods : Option String := none
  Nodes : Option String := none
  Services : Option String := none
deriving DecidableEq, Repr

/-- Part of `gardencorev1beta1.ShootSpec` that the predicate reads; `Networking`
is a pointer. -/
structure ShootSpec where
  Networking : Option Networking := none
deriving DecidableEq, Repr

/-- Part of `gardencorev1beta1.Shoot` that the predicate reads. -/
structure Shoot where
  Spec : ShootSpec := {}
deriving DecidableEq, Repr

/-- Helper functions that `ClusterPredicate` calls and that are not among the
sources: `extensions.ShootFromCluster`, with its two results (the shoot, a
pointer, and the error, `none` for nil), and `v1beta1helper.IsWorkerless`. The
type `Cluster` stands for `extensionsv1alpha1.Cluster`. -/
structure Helpers (Cluster : Type) where
  ShootFromCluster : Cluster → Option Shoot × Option String
  IsWorkerless : Shoot → Bool

/-- Function `ClusterPredicate` (add.go, lines 105 to 144). In the branch for a
shoot with workers the networking section of the old shoot is dereferenced
without a nil check: when it is nil the call panics (`none`). -/
def ClusterPredicate {Cluster : Type} (h : Helpers Cluster) :
    TypedPredicateOrPanic (Option Cluster) :=
  { Update := fun e =>
      match e.ObjectNew with
      | none => some false
      | some cluster =>
        match h.ShootFromCluster cluster with
        | (_, some _) => some false
        | (none, none) => some false
        | (some shoot, none) =>
          match e.ObjectOld with
          | none => some false
          | some oldCluster =>
            match h.ShootFromCluster oldCluster with
            | (_, some _) => some false
            | (none, none) => some false
            | (some oldShoot, none) =>
              match shoot.Spec.Networking with
              | none => some false
              | some networking =>
                if h.IsWorkerless shoot then
                  match oldShoot.Spec.Networking with
                  | none => some true
                  | some oldNetworking =>
                    some (!ptrEqual networking.Services oldNetworking.Services)
                else
                  match oldShoot.Spec.Networking with
                  | none => none
                  | some oldNetworking =>
                    some (!ptrEqual networking.Pods oldNetworking.Pods ||
                      !ptrEqual networking.Services oldNetworking.Services ||
                      !ptrEqual networking.Nodes oldNetworking.Nodes)
    Create := fun _ => false
    Delete := fun _ => false
    Generic := fun _ => false }

end networkpolicy

/-! ## Project activity controller -/

namespace activity

open predicate

/-- Part of `metav1.ObjectMeta` that the predicates read through
`meta.Accessor`: the creation timestamp, as an instant in nanoseconds, and the
labels. -/
structure ObjectMeta where
  CreationTimestamp : Int := 0
  Labels : StringMap := []
deriving DecidableEq, Repr

/-- Constant `time.Hour`, a `time.Duration` in nanoseconds. -/
def Hour : Int := 3600000000000

/-- Largest `time.Duration` (a 64-bit signed count of nanoseconds). -/
def maxDuration : Int := 2 ^ 63 - 1

/-- Smallest `time.Duration`. -/
def minDuration : Int := -(2 ^ 63)

/-- Method `Time.Sub` of Go: the duration `t - u`, and "if the result exceeds the
maximum (or minimum) value that can be stored in a Duration, the maximum (or
minimum) duration will be returned". -/
def timeSub (t u : Int) : Int :=
  if t - u > maxDuration then maxDuration
  else if t - u < minDuration then minDuration
  else t - u

/-- Function `meta.Accessor` of `k8s.io/apimachinery` on the object of an event:
an error (`none`) for a nil object, else the object's metadata. -/
def Accessor (obj : Option ObjectMeta) : Option ObjectMeta := obj

/-- Fields of the `Reconciler` that the predicates read: the current time of its
clock (`r.Clock.Now()`), an instant in nanoseconds. -/
structure Reconciler where
  Now : Int

/-- Method `Reconciler.OnlyNewlyCreatedObjects` (add.go, lines 99 to 110): only
`CreateFunc` is set; `UTC()` does not change the instant. -/
def OnlyNewlyCreatedObjects (r : Reconciler) : TypedPredicate (Option ObjectMeta) :=
  TypedFuncs.toPredicate
    { CreateFunc := some (fun e =>
        match Accessor e.Object with
        | none => false
        | some objMeta => decide (timeSub r.Now objMeta.CreationTimestamp ≤ Hour)) }

/-- Method `Reconciler.NeedsSecretBindingReferenceLabelPredicate` (add.go, lines
114 to 151): `CreateFunc`, `UpdateFunc` and `DeleteFunc` are set, `GenericFunc`
is not. The constant `v1beta1constants.LabelSecretBindingReference` is not among
the sources and is a parameter. -/
def NeedsSecretBindingReferenceLabelPredicate (LabelSecretBindingReference : String) :
    TypedPredicate (Option ObjectMeta) :=
  TypedFuncs.toPredicate
    { CreateFunc := some (fun e =>
        match Accessor e.Object with
        | none => false
        | some objMeta => mapHas objMeta.Labels LabelSecretBindingReference)
      UpdateFunc := some (fun e =>
        match Accessor e.ObjectOld with
        | none => false
        | some oldObjMeta =>
          match Accessor e.ObjectNew with
          | none => false
          | some objMeta =>
            let oldObjHasLabel := mapHas oldObjMeta.Labels LabelSecretBindingReference
            let newObjHasLabel := mapHas objMeta.Labels LabelSecretBindingReference
            oldObjHasLabel || newObjHasLabel)
      DeleteFunc := some (fun e =>
        match Accessor e.Object with
        | none => false
        | some objMeta => mapHas objMeta.Labels LabelSecretBindingReference) }

end activity

open flow

/-- Dependency relation of a graph: `a` depends on `b` when the task added with
identifier `a` lists `b` among its `Dependencies`. -/
def DependsOn (g : Graph) (a b : TaskID) : Prop :=
  ∃ e ∈ g.tasks, e.1 = a ∧ b ∈ e.2.Dependencies

/-! ## Theorems -/

/-- A chain of dependencies leads to a strictly smaller identifier when every
task depends only on smaller identifiers than its own. -/
theorem transGen_dependsOn_lt (g : Graph)
    (hlt : ∀ e ∈ g.tasks, ∀ d ∈ e.2.Dependencies, d < e.1) {a b : TaskID}
    (h : Relation.TransGen (DependsOn g) a b) : b < a := by
  induction h with
  | single hab =>
    obtain ⟨e, he, rfl, hd⟩ := hab
    exact hlt e he _ hd
  | tail _ hbc ih =>
    obtain ⟨e, he, rfl, hd⟩ := hbc
    exact lt_trans (hlt e he _ hd) ih

/-- C1: the construction of the force-delete graph succeeds with 21 tasks whose
identifiers are pairwise distinct; the task of the i-th `g.Add` call declares as
`Dependencies` only identifiers returned by the calls before it; and no task
depends on itself, directly or transitively. -/
theorem forceDeleteGraph_dependencies_earlier_acyclic :
    ∃ g, shoot.forceDeleteGraph = some g ∧ g.tasks.length = 21 ∧
      (g.tasks.map Prod.fst).Nodup ∧
      (∀ i, ∀ h : i < g.tasks.length, ∀ d ∈ (g.tasks.get ⟨i, h⟩).2.Dependencies,
        d ∈ (g.tasks.take i).map Prod.fst) ∧
      (∀ t, ¬ Relation.TransGen (DependsOn g) t t) := by
  have key : ∀ g ∈ shoot.forceDeleteGraph, g.tasks.length = 21 ∧
      (g.tasks.map Prod.fst).Nodup ∧
      (∀ i, ∀ h : i < g.tasks.length, ∀ d ∈ (g.tasks.get ⟨i, h⟩).2.Dependencies,
        d ∈ (g.tasks.take i).map Prod.fst) ∧
      (∀ e ∈ g.tasks, ∀ d ∈ e.2.Dependencies, d < e.1) := by decide
  cases hg : shoot.forceDeleteGraph with
  | none => exact absurd hg (by decide)
  | some g =>
    obtain ⟨h21, hnodup, hearlier, hlt⟩ := key g hg
    exact ⟨g, rfl, h21, hnodup, hearlier,
      fun t ht => lt_irrefl t (transGen_dependsOn_lt g hlt ht)⟩

/-! ### Execution: bookkeeping lemmas -/

/-- State of a task after one entry of the state table was rewritten. -/
theorem lookup_setState (t : TaskID) (s : TaskState) (d : TaskID) :
    ∀ l : List (TaskID × TaskState),
      (setState t s l).lookup d = if d = t then (l.lookup d).map (fun _ => s) else l.lookup d
  | [] => by simp [setState]
  | p :: ps => by
    have ih := lookup_setState t s d ps
    obtain ⟨k, v⟩ := p
    by_cases hkt : k = t
    · by_cases hdk : d = k
      · have hdt : d = t := hdk.trans hkt
        simp [setState, List.lookup_cons, hkt, hdt]
      · have hdt : ¬ d = t := fun h => hdk (h.trans hkt.symm)
        have hb : (d == k) = false := by simpa using hdk
        have hb2 : (d == t) = false := by simpa using hdt
        simp only [setState, hkt, if_true, List.lookup_cons, hb2, ih, if_neg hdt]
    · by_cases hdk : d = k
      · have hdt : ¬ d = t := fun h => hkt (hdk.symm.trans h)
        simp [setState, List.lookup_cons, hkt, hdk]
      · have hb : (d == k) = false := by simpa using hdk
        simp only [setState, if_neg hkt, List.lookup_cons, hb, ih]

/-- State of task `d` in a run whose task `t` moved to state `s`. -/
theorem stateOf_setState (r : Run) (t : TaskID) (s : TaskState) (d : TaskID)
    (errs : List NamedError) (c : Bool) :
    Run.stateOf { states := setState t s r.states, errors := errs, cancelled := c } d
      = if d = t then (r.stateOf d).map (fun _ => s) else r.stateOf d := by
  simp only [Run.stateOf]
  exact lookup_setState t s d r.states

/-- At the start of a run every task of the plan is `Pending`. -/
theorem stateOf_init (f : Flow) (d : TaskID) (s : TaskState)
    (h : (Run.init f).stateOf d = some s) : s = TaskState.Pending := by
  have aux : ∀ ns : List Node,
      (ns.map (fun n => (n.id, TaskState.Pending))).lookup d = some s → s = TaskState.Pending := by
    intro ns
    induction ns with
    | nil => intro h; simp at h
    | cons n ns ih =>
      intro h
      simp only [List.map_cons, List.lookup_cons] at h
      split at h
      · exact (Option.some.inj h).symm
      · exact ih h
  exact aux f.nodes h

/-- What a possible launch says about the state before and after it. -/
theorem step_launch {f : Flow} {r r1 : Run} {t : TaskID}
    (h : step f r (Event.launch t) = some r1) :
    ∃ n, f.node t = some n ∧ r.stateOf t = some TaskState.Pending ∧ r.cancelled = false ∧
      n.skipIf = false ∧ (∀ d ∈ n.predecessors, r.satisfied d = true) ∧
      r1 = { r with states := setState t TaskState.Running r.states } := by
  simp only [step] at h
  split at h
  · exact absurd h (by simp)
  · rename_i n hn
    split at h
    · rename_i hg
      obtain ⟨h1, h2, h3, h4⟩ := hg
      exact ⟨n, hn, h1, h2, h3, List.all_eq_true.mp h4, (Option.some.inj h).symm⟩
    · exact absurd h (by simp)

/-- What a possible explicit skip says about the state before and after it. -/
theorem step_skip {f : Flow} {r r1 : Run} {t : TaskID}
    (h : step f r (Event.skip t) = some r1) :
    ∃ n, f.node t = some n ∧ r.stateOf t = some TaskState.Pending ∧ r.cancelled = false ∧
      n.skipIf = true ∧ (∀ d ∈ n.predecessors, r.satisfied d = true) ∧
      r1 = { r with states := setState t TaskState.Skipped r.states } := by
  simp only [step] at h
  split at h
  · exact absurd h (by simp)
  · rename_i n hn
    split at h
    · rename_i hg
      obtain ⟨h1, h2, h3, h4⟩ := hg
      exact ⟨n, hn, h1, h2, h3, List.all_eq_true.mp h4, (Option.some.inj h).symm⟩
    · exact absurd h (by simp)

/-- What a possible blocking says about the state before and after it. -/
theorem step_block {f : Flow} {r r1 : Run} {t : TaskID}
    (h : step f r (Event.block t) = some r1) :
    ∃ n, f.node t = some n ∧ r.stateOf t = some TaskState.Pending ∧ r.cancelled = false ∧
      n.skipIf = false ∧ (∃ d ∈ n.predecessors, r.broken d = true) ∧
      r1 = { r with states := setState t TaskState.BlockedBySkip r.states } := by
  simp only [step] at h
  split at h
  · exact absurd h (by simp)
  · rename_i n hn
    split at h
    · rename_i hg
      obtain ⟨h1, h2, h3, h4⟩ := hg
      exact ⟨n, hn, h1, h2, h3, List.any_eq_true.mp h4, (Option.some.inj h).symm⟩
    · exact absurd h (by simp)

/-- What a possible termination says about the state before and after it. -/
theorem step_finish {f : Flow} {r r1 : Run} {t : TaskID} {err : Option TaskError}
    (h : step f r (Event.finish t err) = some r1) :
    ∃ n, f.node t = some n ∧ r.stateOf t = some TaskState.Running ∧
      ((err = none ∧ r1 = { r with states := setState t TaskState.Succeeded r.states }) ∨
       (∃ c, err = some c ∧ r1 = { r with
          states := setState t TaskState.Failed r.states
          errors := r.errors ++ [{ taskName := n.name, cause := c }] })) := by
  simp only [step] at h
  split at h
  · exact absurd h (by simp)
  · rename_i n hn
    split at h
    · rename_i hg
      cases err with
      | none => exact ⟨n, hn, hg, Or.inl ⟨rfl, (Option.some.inj h).symm⟩⟩
      | some c => exact ⟨n, hn, hg, Or.inr ⟨c, rfl, (Option.some.inj h).symm⟩⟩
    · exact absurd h (by simp)

/-- A task found in a given state after task `t` moved to state `s` is either
`t` in state `s` or another task, unchanged. -/
theorem stateOf_setState_cases {r : Run} {t : TaskID} {s : TaskState} {d : TaskID}
    {errs : List NamedError} {c : Bool} {x : TaskState}
    (h : Run.stateOf { states := setState t s r.states, errors := errs, cancelled := c } d
      = some x) :
    (d = t ∧ x = s) ∨ (d ≠ t ∧ r.stateOf d = some x) := by
  rw [stateOf_setState] at h
  by_cases hdt : d = t
  · rw [if_pos hdt] at h
    cases hd : r.stateOf d with
    | none => rw [hd] at h; simp at h
    | some y =>
      rw [hd] at h
      simp only [Option.map_some', Option.some.injEq] at h
      exact Or.inl ⟨hdt, h.symm⟩
  · rw [if_neg hdt] at h
    exact Or.inr ⟨hdt, h⟩

/-- Every task found `Succeeded` (`Skipped`) has its successful termination
(its skip) among the events so far: one step keeps this true. -/
theorem step_recorded {f : Flow} {r r1 : Run} {e : Event} {hist : List Event}
    (h : step f r e = some r1)
    (hs : ∀ d, r.stateOf d = some TaskState.Succeeded → Event.finish d none ∈ hist)
    (hk : ∀ d, r.stateOf d = some TaskState.Skipped → Event.skip d ∈ hist) :
    (∀ d, r1.stateOf d = some TaskState.Succeeded → Event.finish d none ∈ hist ++ [e]) ∧
    (∀ d, r1.stateOf d = some TaskState.Skipped → Event.skip d ∈ hist ++ [e]) := by
  cases e with
  | launch t =>
    obtain ⟨n, -, -, -, -, -, rfl⟩ := step_launch h
    refine ⟨fun d hd => ?_, fun d hd => ?_⟩
    · rcases stateOf_setState_cases hd with ⟨-, hx⟩ | ⟨-, hx⟩
      · exact absurd hx (by decide)
      · exact List.mem_append_left _ (hs d hx)
    · rcases stateOf_setState_cases hd with ⟨-, hx⟩ | ⟨-, hx⟩
      · exact absurd hx (by decide)
      · exact List.mem_append_left _ (hk d hx)
  | skip t =>
    obtain ⟨n, -, -, -, -, -, rfl⟩ := step_skip h
    refine ⟨fun d hd => ?_, fun d hd => ?_⟩
    · rcases stateOf_setState_cases hd with ⟨-, hx⟩ | ⟨-, hx⟩
      · exact absurd hx (by decide)
      · exact List.mem_append_left _ (hs d hx)
    · rcases stateOf_setState_cases hd with ⟨hdt, -⟩ | ⟨-, hx⟩
      · rw [hdt]; simp
      · exact List.mem_append_left _ (hk d hx)
  | block t =>
    obtain ⟨n, -, -, -, -, -, rfl⟩ := step_block h
    refine ⟨fun d hd => ?_, fun d hd => ?_⟩
    · rcases stateOf_setState_cases hd with ⟨-, hx⟩ | ⟨-, hx⟩
      · exact absurd hx (by decide)
      · exact List.mem_append_left _ (hs d hx)
    · rcases stateOf_setState_cases hd with ⟨-, hx⟩ | ⟨-, hx⟩
      · exact absurd hx (by decide)
      · exact List.mem_append_left _ (hk d hx)
  | finish t err =>
    obtain ⟨n, -, -, hcase⟩ := step_finish h
    rcases hcase with ⟨rfl, rfl⟩ | ⟨c, rfl, rfl⟩
    · refine ⟨fun d hd => ?_, fun d hd => ?_⟩
      · rcases stateOf_setState_cases hd with ⟨hdt, -⟩ | ⟨-, hx⟩
        · rw [hdt]; simp
        · exact List.mem_append_left _ (hs d hx)
      · rcases stateOf_setState_cases hd with ⟨-, hx⟩ | ⟨-, hx⟩
        · exact absurd hx (by decide)
        · exact List.mem_append_left _ (hk d hx)
    · refine ⟨fun d hd => ?_, fun d hd => ?_⟩
      · rcases stateOf_setState_cases hd with ⟨-, hx⟩ | ⟨-, hx⟩
        · exact absurd hx (by decide)
        · exact List.mem_append_left _ (hs d hx)
      · rcases stateOf_setState_cases hd with ⟨-, hx⟩ | ⟨-, hx⟩
        · exact absurd hx (by decide)
        · exact List.mem_append_left _ (hk d hx)
  | cancel =>
    simp only [step, Option.some.injEq] at h
    subst h
    exact ⟨fun d hd => List.mem_append_left _ (hs d hd),
      fun d hd => List.mem_append_left _ (hk d hd)⟩

/-- In an execution, the launch of a task comes after the successful termination
or the explicit skip of each of its direct predecessors. -/
theorem exec_launch_after_predecessors (f : Flow) :
    ∀ (evs : List Event) (r r1 : Run) (hist : List Event),
      (∀ d, r.stateOf d = some TaskState.Succeeded → Event.finish d none ∈ hist) →
      (∀ d, r.stateOf d = some TaskState.Skipped → Event.skip d ∈ hist) →
      exec f r evs = some r1 →
      ∀ (pre post : List Event) (t : TaskID), evs = pre ++ Event.launch t :: post →
      ∀ n, f.node t = some n → ∀ d ∈ n.predecessors,
        Event.finish d none ∈ hist ++ pre ∨ Event.skip d ∈ hist ++ pre
  | [], _, _, _, _, _, _, pre, post, t, hsplit => by
    exact absurd hsplit (by simp)
  | e :: es, r, r1, hist, hs, hk, hexec, pre, post, t, hsplit => by
    intro n hn d hd
    simp only [exec] at hexec
    cases hstep : step f r e with
    | none => rw [hstep] at hexec; simp at hexec
    | some r2 =>
      rw [hstep] at hexec
      simp only [Option.some_bind] at hexec
      cases pre with
      | nil =>
        simp only [List.nil_append, List.cons.injEq] at hsplit
        obtain ⟨he, -⟩ := hsplit
        subst he
        obtain ⟨m, hm, -, -, -, hsat, -⟩ := step_launch hstep
        rw [hn] at hm
        cases Option.some.inj hm
        have hsd := hsat d hd
        simp only [Run.satisfied, Bool.or_eq_true, beq_iff_eq] at hsd
        rcases hsd with hsd | hsd
        · exact Or.inl (by simpa using hs d hsd)
        · exact Or.inr (by simpa using hk d hsd)
      | cons p pre1 =>
        simp only [List.cons_append, List.cons.injEq] at hsplit
        obtain ⟨he, hes⟩ := hsplit
        subst he
        obtain ⟨hs2, hk2⟩ := step_recorded hstep hs hk
        have ih := exec_launch_after_predecessors f es r2 r1 (hist ++ [e]) hs2 hk2 hexec
          pre1 post t hes n hn d hd
        simpa [List.append_assoc] using ih

/-- An explicit skip happens only to a task whose `SkipIf` is set. -/
theorem exec_skip_only_skipIf (f : Flow) :
    ∀ (evs : List Event) (r r1 : Run), exec f r evs = some r1 →
      ∀ d, Event.skip d ∈ evs → ∃ n, f.node d = some n ∧ n.skipIf = true
  | [], _, _, _, d, hd => by simp at hd
  | e :: es, r, r1, hexec, d, hd => by
    simp only [exec] at hexec
    cases hstep : step f r e with
    | none => rw [hstep] at hexec; simp at hexec
    | some r2 =>
      rw [hstep] at hexec
      simp only [Option.some_bind] at hexec
      rcases List.mem_cons.mp hd with hde | hdes
      · subst hde
        obtain ⟨n, hn, -, -, hskip, -, -⟩ := step_skip hstep
        exact ⟨n, hn, hskip⟩
      · exact exec_skip_only_skipIf f es r2 r1 hexec d hdes

/-- The force-delete graph compiles. -/
theorem forceDeleteFlow_isSome : shoot.forceDeleteFlow.isSome = true := by decide

/-- C2: in every execution of the compiled force-delete flow, when a task is
launched, each task of its declared dependencies has terminated successfully
(or was explicitly skipped) before; so "Deleting shoot namespace" is launched
only after "Deleting secrets" has succeeded, and "Deleting Cluster resource"
only after the four wait tasks it depends on have succeeded. -/
theorem forceDeleteFlow_launch_after_dependencies (f : Flow)
    (hf : shoot.forceDeleteFlow = some f) (evs : List Event)
    (hexec : (exec f (Run.init f) evs).isSome = true)
    (pre post : List Event) (t : TaskID) (hsplit : evs = pre ++ Event.launch t :: post) :
    (∀ n ∈ f.nodes, n.id = t → ∀ d ∈ n.predecessors,
      Event.finish d none ∈ pre ∨ Event.skip d ∈ pre) ∧
    (∀ n ∈ f.nodes, n.id = t → n.name = "Deleting shoot namespace" →
      ∃ m ∈ f.nodes, m.name = "Deleting secrets" ∧ Event.finish m.id none ∈ pre) ∧
    (∀ n ∈ f.nodes, n.id = t → n.name = "Deleting Cluster resource" →
      ∀ w ∈ ["Waiting until extension resources have been deleted",
             "Waiting until BackupEntry resource has been deleted",
             "Waiting until ControlPlane resources have been deleted",
             "Waiting until DNSRecord resources have been deleted"],
        ∃ m ∈ f.nodes, m.name = w ∧ Event.finish m.id none ∈ pre) := by
  have key : ∀ f ∈ shoot.forceDeleteFlow,
      (∀ n ∈ f.nodes, f.node n.id = some n ∧ n.skipIf = false) ∧
      (∀ n ∈ f.nodes, n.name = "Deleting shoot namespace" →
        ∃ m ∈ f.nodes, m.name = "Deleting secrets" ∧ m.id ∈ n.predecessors) ∧
      (∀ n ∈ f.nodes, n.name = "Deleting Cluster resource" →
        ∀ w ∈ ["Waiting until extension resources have been deleted",
               "Waiting until BackupEntry resource has been deleted",
               "Waiting until ControlPlane resources have been deleted",
               "Waiting until DNSRecord resources have been deleted"],
          ∃ m ∈ f.nodes, m.name = w ∧ m.id ∈ n.predecessors) := by decide
  obtain ⟨hnodes, hns, hcl⟩ := key f hf
  cases hr : exec f (Run.init f) evs with
  | none => rw [hr] at hexec; simp at hexec
  | some r1 =>
    have hinit1 : ∀ d, (Run.init f).stateOf d = some TaskState.Succeeded →
        Event.finish d none ∈ ([] : List Event) :=
      fun d hd => absurd (stateOf_init f d _ hd) (by decide)
    have hinit2 : ∀ d, (Run.init f).stateOf d = some TaskState.Skipped →
        Event.skip d ∈ ([] : List Event) :=
      fun d hd => absurd (stateOf_init f d _ hd) (by decide)
    have hdeps : ∀ n ∈ f.nodes, n.id = t → ∀ d ∈ n.predecessors,
        Event.finish d none ∈ pre ∨ Event.skip d ∈ pre := by
      intro n hn hid d hd
      have hnode : f.node t = some n := hid ▸ (hnodes n hn).1
      simpa using exec_launch_after_predecessors f evs (Run.init f) r1 [] hinit1 hinit2 hr
        pre post t hsplit n hnode d hd
    have hsucc : ∀ n ∈ f.nodes, n.id = t → ∀ d ∈ n.predecessors,
        Event.finish d none ∈ pre := by
      intro n hn hid d hd
      rcases hdeps n hn hid d hd with h | h
      · exact h
      · have hmem : Event.skip d ∈ evs := by
          rw [hsplit]; exact List.mem_append_left _ h
        obtain ⟨m, hm, hskip⟩ := exec_skip_only_skipIf f evs (Run.init f) r1 hr d hmem
        have hmn : m ∈ f.nodes := List.mem_of_find?_eq_some hm
        rw [(hnodes m hmn).2] at hskip
        exact absurd hskip (by decide)
    refine ⟨hdeps, ?_, ?_⟩
    · intro n hn hid hname
      obtain ⟨m, hm, hmname, hmpred⟩ := hns n hn hname
      exact ⟨m, hm, hmname, hsucc n hn hid m.id hmpred⟩
    · intro n hn hid hname w hw
      obtain ⟨m, hm, hmname, hmpred⟩ := hcl n hn hname w hw
      exact ⟨m, hm, hmname, hsucc n hn hid m.id hmpred⟩

/-- Witness for C2: in the execution that launches "Deleting Etcd resources"
(task 15), sees it succeed and then launches the wait task 16 that depends on
it, the success of 15 precedes the launch of 16. -/
theorem forceDeleteFlow_launch_after_dependencies_witness :
    shoot.forceDeleteFlow = some (shoot.forceDeleteFlow.get forceDeleteFlow_isSome) ∧
    (exec (shoot.forceDeleteFlow.get forceDeleteFlow_isSome)
        (Run.init (shoot.forceDeleteFlow.get forceDeleteFlow_isSome))
        [Event.launch 15, Event.finish 15 none, Event.launch 16]).isSome = true ∧
    (∀ n ∈ (shoot.forceDeleteFlow.get forceDeleteFlow_isSome).nodes, n.id = 16 →
      ∀ d ∈ n.predecessors,
        Event.finish d none ∈ [Event.launch 15, Event.finish 15 none] ∨
        Event.skip d ∈ [Event.launch 15, Event.finish 15 none]) :=
  ⟨by simp, by decide,
    (forceDeleteFlow_launch_after_dependencies
      (shoot.forceDeleteFlow.get forceDeleteFlow_isSome) (by simp)
      [Event.launch 15, Event.finish 15 none, Event.launch 16] (by decide)
      [Event.launch 15, Event.finish 15 none] [] 16 rfl).1⟩

/-! ### The diamond -/

/-- The diamond graph compiles to the plan written out. -/
theorem diamond_compiled : diamond.compiled = some diamond.plan := by decide

/-- Nodes of the diamond plan, by identifier. -/
theorem diamond_node {t : TaskID} {n : Node} (h : diamond.plan.node t = some n) :
    n.skipIf = false ∧
    ((t = 0 ∧ n.predecessors = [] ∧ n.name = "A") ∨
     (t = 1 ∧ n.predecessors = [0] ∧ n.name = "B") ∨
     (t = 2 ∧ n.predecessors = [0] ∧ n.name = "C") ∨
     (t = 3 ∧ n.predecessors = [1, 2] ∧ n.name = "D")) := by
  rcases t with _ | _ | _ | _ | t
  · simp [Flow.node, diamond.plan, List.find?] at h
    subst h; simp
  · simp [Flow.node, diamond.plan, List.find?] at h
    subst h; simp
  · simp [Flow.node, diamond.plan, List.find?] at h
    subst h; simp
  · simp [Flow.node, diamond.plan, List.find?] at h
    subst h; simp
  · simp [Flow.node, diamond.plan, List.find?] at h

/-- States of the tasks after task `t`, found in state `old`, moved to state
`s`. -/
theorem diamond_moved (r : Run) (t : TaskID) (s old : TaskState)
    (errs : List NamedError) (c : Bool) (h : r.stateOf t = some old) (d : TaskID) :
    Run.stateOf { states := setState t s r.states, errors := errs, cancelled := c } d
      = if d = t then some s else r.stateOf d := by
  rw [stateOf_setState]
  by_cases hdt : d = t
  · rw [if_pos hdt, if_pos hdt, hdt, h]; rfl
  · rw [if_neg hdt, if_neg hdt]

/-- A launch keeps the invariant of the diamond. -/
theorem diamond_step_launch {r r1 : Run} {t : TaskID} {hist : List Event}
    (hinv : diamond.Inv r hist) (h : step diamond.plan r (Event.launch t) = some r1) :
    diamond.Inv r1 (hist ++ [Event.launch t]) := by
  obtain ⟨i1, i2, i3, i4, i5, i6, i7, i8, i9, i10, i11, i13, i12⟩ := hinv
  obtain ⟨n, hn, hp, -, -, hsat, rfl⟩ := step_launch h
  have hm := diamond_moved r t TaskState.Running _ r.errors r.cancelled hp
  clear h
  rcases (diamond_node hn).2 with ⟨rfl, hpre, -⟩ | ⟨rfl, hpre, -⟩ | ⟨rfl, hpre, -⟩ | ⟨rfl, hpre, -⟩
  · constructor <;> simp_all
  · have hA : r.stateOf 0 = some TaskState.Succeeded := by
      have h0 := hsat 0 (by simp [hpre])
      simp only [Run.satisfied, Bool.or_eq_true, beq_iff_eq] at h0
      rcases h0 with h0 | h0
      · exact h0
      · rcases i2 with a | a | a <;> rw [a] at h0 <;> exact absurd h0 (by decide)
    clear hsat
    constructor <;> simp_all
  · have hA : r.stateOf 0 = some TaskState.Succeeded := by
      have h0 := hsat 0 (by simp [hpre])
      simp only [Run.satisfied, Bool.or_eq_true, beq_iff_eq] at h0
      rcases h0 with h0 | h0
      · exact h0
      · rcases i2 with a | a | a <;> rw [a] at h0 <;> exact absurd h0 (by decide)
    clear hsat
    constructor <;> simp_all
  · exfalso
    have h1 := hsat 1 (by simp [hpre])
    simp only [Run.satisfied, Bool.or_eq_true, beq_iff_eq] at h1
    rcases i3 with a | a | a <;> rw [a] at h1 <;> rcases h1 with h1 | h1 <;>
      exact absurd h1 (by decide)

/-- The recording of a blocked task keeps the invariant of the diamond. -/
theorem diamond_step_block {r r1 : Run} {t : TaskID} {hist : List Event}
    (hinv : diamond.Inv r hist) (h : step diamond.plan r (Event.block t) = some r1) :
    diamond.Inv r1 (hist ++ [Event.block t]) := by
  obtain ⟨i1, i2, i3, i4, i5, i6, i7, i8, i9, i10, i11, i13, i12⟩ := hinv
  obtain ⟨n, hn, hp, -, -, hbr, rfl⟩ := step_block h
  have hm := diamond_moved r t TaskState.BlockedBySkip _ r.errors r.cancelled hp
  clear h
  have hnoA : r.broken 0 = true → False := by
    intro h0
    simp only [Run.broken, Bool.or_eq_true, beq_iff_eq] at h0
    rcases i2 with a | a | a <;> rw [a] at h0 <;> rcases h0 with h0 | h0 <;>
      exact absurd h0 (by decide)
  obtain ⟨d, hd, hdb⟩ := hbr
  rcases (diamond_node hn).2 with ⟨rfl, hpre, -⟩ | ⟨rfl, hpre, -⟩ | ⟨rfl, hpre, -⟩ | ⟨rfl, hpre, -⟩
  · rw [hpre] at hd
    simp at hd
  · rw [hpre] at hd
    simp only [List.mem_singleton] at hd
    subst hd
    exact absurd hdb hnoA
  · rw [hpre] at hd
    simp only [List.mem_singleton] at hd
    subst hd
    exact absurd hdb hnoA
  · clear hdb hd hnoA
    constructor <;> simp_all

/-- A successful termination of A, C or D keeps the invariant of the diamond. -/
theorem diamond_step_succeed {r r1 : Run} {t : TaskID} {hist : List Event}
    (hinv : diamond.Inv r hist) (h : step diamond.plan r (Event.finish t none) = some r1)
    (ht : t ≠ 1) :
    diamond.Inv r1 (hist ++ [Event.finish t none]) := by
  obtain ⟨i1, i2, i3, i4, i5, i6, i7, i8, i9, i10, i11, i13, i12⟩ := hinv
  obtain ⟨n, hn, hp, hcase⟩ := step_finish h
  rcases hcase with ⟨-, rfl⟩ | ⟨c, hc, -⟩
  · have hm := diamond_moved r t TaskState.Succeeded _ r.errors r.cancelled hp
    clear h
    rcases (diamond_node hn).2 with ⟨rfl, hpre, -⟩ | ⟨rfl, hpre, -⟩ | ⟨rfl, hpre, -⟩ | ⟨rfl, hpre, -⟩
    · constructor <;> simp_all
    · exact absurd rfl ht
    · constructor <;> simp_all
    · exfalso
      rcases i5 with a | a <;> rw [a] at hp <;> exact absurd hp (by decide)
  · exact absurd hc (by simp)

/-- A permanent failure of B keeps the invariant of the diamond. -/
theorem diamond_step_fail {r r1 : Run} {hist : List Event}
    (hinv : diamond.Inv r hist)
    (h : step diamond.plan r (Event.finish 1 (some TaskError.permanent)) = some r1) :
    diamond.Inv r1 (hist ++ [Event.finish 1 (some TaskError.permanent)]) := by
  obtain ⟨i1, i2, i3, i4, i5, i6, i7, i8, i9, i10, i11, i13, i12⟩ := hinv
  obtain ⟨n, hn, hp, hcase⟩ := step_finish h
  rcases hcase with ⟨hc, -⟩ | ⟨c, hc, rfl⟩
  · exact absurd hc (by simp)
  · have hm := diamond_moved r 1 TaskState.Failed _
      (r.errors ++ [{ taskName := n.name, cause := c }]) r.cancelled hp
    clear h
    rcases (diamond_node hn).2 with ⟨h0, -, -⟩ | ⟨-, hpre, hname⟩ | ⟨h0, -, -⟩ | ⟨h0, -, -⟩
    · exact absurd h0 (by decide)
    · cases Option.some.inj hc
      constructor <;> simp_all [diamond.errB]
    · exact absurd h0 (by decide)
    · exact absurd h0 (by decide)

/-- One step of a run of the diamond keeps the invariant, when it is not a
cancellation and a terminating task reports what it can report: B a permanent
error, the others success. -/
theorem diamond_step {r r1 : Run} {e : Event} {hist : List Event}
    (hinv : diamond.Inv r hist) (h : step diamond.plan r e = some r1)
    (hc : e ≠ Event.cancel)
    (hout : ∀ t err, e = Event.finish t err →
      err = if t = 1 then some TaskError.permanent else none) :
    diamond.Inv r1 (hist ++ [e]) := by
  cases e with
  | launch t => exact diamond_step_launch hinv h
  | skip t =>
    obtain ⟨n, hn, -, -, hskip, -, -⟩ := step_skip h
    rw [(diamond_node hn).1] at hskip
    exact absurd hskip (by decide)
  | block t => exact diamond_step_block hinv h
  | finish t err =>
    have ho := hout t err rfl
    by_cases ht : t = 1
    · subst ht
      rw [if_pos rfl] at ho
      subst ho
      exact diamond_step_fail hinv h
    · rw [if_neg ht] at ho
      subst ho
      exact diamond_step_succeed hinv h ht
  | cancel => exact absurd rfl hc

/-- The invariant of the diamond holds at the start of a run. -/
theorem diamond_init : diamond.Inv (Run.init diamond.plan) [] := by
  constructor <;> simp [Run.init, Run.stateOf, diamond.plan, List.lookup]

/-- The invariant of the diamond holds along every execution without
cancellation in which B can only fail permanently and the others only succeed. -/
theorem diamond_exec :
    ∀ (evs : List Event) (r r1 : Run) (hist : List Event), diamond.Inv r hist →
      exec diamond.plan r evs = some r1 → Event.cancel ∉ evs →
      (∀ t err, Event.finish t err ∈ evs →
        err = if t = 1 then some TaskError.permanent else none) →
      diamond.Inv r1 (hist ++ evs)
  | [], r, r1, hist, hinv, hexec, _, _ => by
    simp only [exec, Option.some.injEq] at hexec
    subst hexec
    simpa using hinv
  | e :: es, r, r1, hist, hinv, hexec, hnc, hout => by
    simp only [exec] at hexec
    cases hstep : step diamond.plan r e with
    | none => rw [hstep] at hexec; simp at hexec
    | some r2 =>
      rw [hstep] at hexec
      simp only [Option.some_bind] at hexec
      have hne : e ≠ Event.cancel := fun he => hnc (he ▸ List.mem_cons_self _ _)
      have hinv2 := diamond_step hinv hstep hne
        (fun t err he => hout t err (he ▸ List.mem_cons_self _ _))
      have ih := diamond_exec es r2 r1 (hist ++ [e]) hinv2 hexec
        (fun hmem => hnc (List.mem_cons_of_mem _ hmem))
        (fun t err hmem => hout t err (List.mem_cons_of_mem _ hmem))
      simpa [List.append_assoc] using ih

/-- A task whose state is looked up has an entry in the state table. -/
theorem mem_of_lookup {t : TaskID} {v : TaskState} :
    ∀ {l : List (TaskID × TaskState)}, l.lookup t = some v → (t, v) ∈ l
  | [], h => by simp at h
  | (k, w) :: ps, h => by
    simp only [List.lookup_cons] at h
    split at h
    · rename_i hk
      have hk2 : t = k := by simpa using hk
      cases Option.some.inj h
      rw [hk2]
      exact List.mem_cons_self _ _
    · exact List.mem_cons_of_mem _ (mem_of_lookup h)

/-- A pending task all of whose predecessors are satisfied can be launched. -/
theorem step_launch_enabled {f : Flow} {r : Run} {t : TaskID} {n : Node}
    (hn : f.node t = some n) (hp : r.stateOf t = some TaskState.Pending)
    (hc : r.cancelled = false) (hs : n.skipIf = false)
    (hsat : ∀ d ∈ n.predecessors, r.satisfied d = true) :
    (step f r (Event.launch t)).isSome = true := by
  simp only [step, hn]
  rw [if_pos ⟨hp, hc, hs, List.all_eq_true.mpr hsat⟩]
  rfl

/-- A pending task with a broken predecessor can be recorded as blocked. -/
theorem step_block_enabled {f : Flow} {r : Run} {t : TaskID} {n : Node}
    (hn : f.node t = some n) (hp : r.stateOf t = some TaskState.Pending)
    (hc : r.cancelled = false) (hs : n.skipIf = false)
    (hbr : ∃ d ∈ n.predecessors, r.broken d = true) :
    (step f r (Event.block t)).isSome = true := by
  simp only [step, hn]
  rw [if_pos ⟨hp, hc, hs, List.any_eq_true.mpr hbr⟩]
  rfl

/-- Each identifier of the diamond has its node in the plan. -/
theorem diamond_node_exists {t : TaskID} (ht : t < 4) :
    ∃ n, diamond.plan.node t = some n ∧ n ∈ diamond.plan.nodes ∧ n.id = t := by
  have key : ∀ t < 4, ∃ n ∈ diamond.plan.nodes, diamond.plan.node t = some n ∧ n.id = t := by
    decide
  obtain ⟨n, hmem, hn, hid⟩ := key t ht
  exact ⟨n, hn, hmem, hid⟩

/-- What the end of a run of the diamond says about one task: it is not
running, and neither its launch nor its blocking is possible. -/
theorem diamond_quiescent {r : Run} (hq : quiescent diamond.plan r = true)
    (hc : r.cancelled = false) {t : TaskID} (ht : t < 4) :
    r.stateOf t ≠ some TaskState.Running ∧
    (step diamond.plan r (Event.launch t)).isSome = false ∧
    (step diamond.plan r (Event.block t)).isSome = false := by
  simp only [quiescent, Bool.and_eq_true, List.all_eq_true, Bool.or_eq_true, hc,
    Bool.false_eq_true, false_or] at hq
  obtain ⟨hq1, hq2⟩ := hq
  obtain ⟨n, -, hmem, hid⟩ := diamond_node_exists ht
  have h3 := hq2 n hmem
  rw [hid] at h3
  refine ⟨fun hrun => ?_, ?_, ?_⟩
  · have hm := hq1 _ (mem_of_lookup hrun)
    simp at hm
  · cases hs : step diamond.plan r (Event.launch t) with
    | none => rfl
    | some x => rw [hs] at h3; simp at h3
  · cases hs : step diamond.plan r (Event.block t) with
    | none => rfl
    | some x => rw [hs] at h3; simp at h3

/-- C3: in every complete run of the diamond (B and C depend on A, D on B and
C) without cancellation, in which B fails permanently and no other action
fails, B does fail, D is never launched and is recorded as blocked, C is
launched and terminates successfully, and the aggregated error that the run
returns has exactly one entry, the one for B. -/
theorem diamond_B_fails_permanently (f : Flow) (hf : diamond.compiled = some f)
    (evs : List Event) (errs : List NamedError) (hrun : f.Run evs = some errs)
    (hnc : Event.cancel ∉ evs)
    (hout : ∀ t err, Event.finish t err ∈ evs →
      err = if t = diamond.B then some TaskError.permanent else none) :
    Event.finish diamond.B (some TaskError.permanent) ∈ evs ∧
    Event.launch diamond.D ∉ evs ∧ Event.block diamond.D ∈ evs ∧
    Event.launch diamond.C ∈ evs ∧ Event.finish diamond.C none ∈ evs ∧
    errs = [{ taskName := "B", cause := TaskError.permanent }] := by
  have hfp : f = diamond.plan := by
    rw [diamond_compiled] at hf
    exact (Option.some.inj hf).symm
  subst hfp
  simp only [Flow.Run] at hrun
  cases hexec : exec diamond.plan (Run.init diamond.plan) evs with
  | none => rw [hexec] at hrun; simp at hrun
  | some r =>
    rw [hexec] at hrun
    simp only at hrun
    split at hrun
    · rename_i hq
      cases Option.some.inj hrun
      have hinv := diamond_exec evs _ r [] diamond_init hexec hnc hout
      rw [List.nil_append] at hinv
      obtain ⟨i1, i2, i3, i4, i5, i6, i7, i8, i9, i10, i11, i13, i12⟩ := hinv
      obtain ⟨n0, hn0, -, -⟩ := diamond_node_exists (show 0 < 4 by decide)
      obtain ⟨n1, hn1, -, -⟩ := diamond_node_exists (show 1 < 4 by decide)
      obtain ⟨n2, hn2, -, -⟩ := diamond_node_exists (show 2 < 4 by decide)
      obtain ⟨n3, hn3, -, -⟩ := diamond_node_exists (show 3 < 4 by decide)
      obtain ⟨q0r, q0l, -⟩ := diamond_quiescent hq i1 (show 0 < 4 by decide)
      obtain ⟨q1r, q1l, -⟩ := diamond_quiescent hq i1 (show 1 < 4 by decide)
      obtain ⟨q2r, q2l, -⟩ := diamond_quiescent hq i1 (show 2 < 4 by decide)
      obtain ⟨-, -, q3b⟩ := diamond_quiescent hq i1 (show 3 < 4 by decide)
      -- A has succeeded
      have hA : r.stateOf 0 = some TaskState.Succeeded := by
        rcases i2 with a | a | a
        · have hen := step_launch_enabled hn0 a i1 (diamond_node hn0).1 (by
            rcases (diamond_node hn0).2 with ⟨-, hp, -⟩ | ⟨h, -, -⟩ | ⟨h, -, -⟩ | ⟨h, -, -⟩
            · rw [hp]; simp
            · exact absurd h (by decide)
            · exact absurd h (by decide)
            · exact absurd h (by decide))
          rw [q0l] at hen
          exact absurd hen (by decide)
        · exact absurd a q0r
        · exact a
      have hsatA : r.satisfied 0 = true := by simp [Run.satisfied, hA]
      -- B has failed
      have hB : r.stateOf 1 = some TaskState.Failed := by
        rcases i3 with a | a | a
        · have hen := step_launch_enabled hn1 a i1 (diamond_node hn1).1 (by
            rcases (diamond_node hn1).2 with ⟨h, -, -⟩ | ⟨-, hp, -⟩ | ⟨h, -, -⟩ | ⟨h, -, -⟩
            · exact absurd h (by decide)
            · rw [hp]; simpa using hsatA
            · exact absurd h (by decide)
            · exact absurd h (by decide))
          rw [q1l] at hen
          exact absurd hen (by decide)
        · exact absurd a q1r
        · exact a
      -- C has succeeded
      have hC : r.stateOf 2 = some TaskState.Succeeded := by
        rcases i4 with a | a | a
        · have hen := step_launch_enabled hn2 a i1 (diamond_node hn2).1 (by
            rcases (diamond_node hn2).2 with ⟨h, -, -⟩ | ⟨h, -, -⟩ | ⟨-, hp, -⟩ | ⟨h, -, -⟩
            · exact absurd h (by decide)
            · exact absurd h (by decide)
            · rw [hp]; simpa using hsatA
            · exact absurd h (by decide))
          rw [q2l] at hen
          exact absurd hen (by decide)
        · exact absurd a q2r
        · exact a
      -- D is recorded as blocked
      have hD : r.stateOf 3 = some TaskState.BlockedBySkip := by
        rcases i5 with a | a
        · have hen := step_block_enabled hn3 a i1 (diamond_node hn3).1 (by
            rcases (diamond_node hn3).2 with ⟨h, -, -⟩ | ⟨h, -, -⟩ | ⟨h, -, -⟩ | ⟨-, hp, -⟩
            · exact absurd h (by decide)
            · exact absurd h (by decide)
            · exact absurd h (by decide)
            · exact ⟨1, by rw [hp]; simp, by simp [Run.broken, hB]⟩)
          rw [q3b] at hen
          exact absurd hen (by decide)
        · exact a
      refine ⟨i13 hB, i12, i11 hD, i9 (by rw [hC]; decide), i10 hC, ?_⟩
      rw [i8, if_pos hB]
      rfl
    · exact absurd hrun (by simp)

/-- Witness for C3: A succeeds, B and C are launched, B fails permanently, C
succeeds, D is recorded as blocked; the run returns the single entry for B. -/
theorem diamond_B_fails_permanently_witness :
    diamond.plan.Run [Event.launch 0, Event.finish 0 none, Event.launch 1, Event.launch 2,
        Event.finish 1 (some TaskError.permanent), Event.finish 2 none, Event.block 3]
      = some [{ taskName := "B", cause := TaskError.permanent }] ∧
    Event.launch diamond.D ∉ [Event.launch 0, Event.finish 0 none, Event.launch 1,
        Event.launch 2, Event.finish 1 (some TaskError.permanent), Event.finish 2 none,
        Event.block 3] ∧
    Event.finish diamond.C none ∈ [Event.launch 0, Event.finish 0 none, Event.launch 1,
        Event.launch 2, Event.finish 1 (some TaskError.permanent), Event.finish 2 none,
        Event.block 3] :=
  have h := diamond_B_fails_permanently diamond.plan diamond_compiled
    [Event.launch 0, Event.finish 0 none, Event.launch 1, Event.launch 2,
      Event.finish 1 (some TaskError.permanent), Event.finish 2 none, Event.block 3]
    [{ taskName := "B", cause := TaskError.permanent }] (by decide) (by decide)
    (by
      intro t err hmem
      simp only [List.mem_cons, Event.finish.injEq, List.mem_singleton, reduceCtorEq,
        false_or, or_false, List.not_mem_nil] at hmem
      rcases hmem with ⟨rfl, rfl⟩ | ⟨rfl, rfl⟩ | ⟨rfl, rfl⟩ <;> decide)
  ⟨by decide, h.2.1, h.2.2.2.2.1⟩

/-- C4: the names of the 21 tasks of the force-delete graph are pairwise
distinct, so two tasks of the graph with the same name are the same task. -/
theorem forceDeleteGraph_names_distinct :
    ∃ g, shoot.forceDeleteGraph = some g ∧ g.tasks.length = 21 ∧
      (g.tasks.map (fun e => e.2.Name)).Nodup ∧
      (∀ e1 ∈ g.tasks, ∀ e2 ∈ g.tasks, e1.2.Name = e2.2.Name → e1 = e2) := by
  have key : ∀ g ∈ shoot.forceDeleteGraph, g.tasks.length = 21 ∧
      (g.tasks.map (fun e => e.2.Name)).Nodup := by decide
  cases hg : shoot.forceDeleteGraph with
  | none => exact absurd hg (by decide)
  | some g =>
    obtain ⟨h21, hnodup⟩ := key g hg
    exact ⟨g, rfl, h21, hnodup,
      fun e1 h1 e2 h2 hname => List.inj_on_of_nodup_map hnodup h1 h2 hname⟩


/-! ### `runForceDeleteShootFlow`: result and error context -/

/-- The loop that collects `tasksWithErrors`, started from any accumulator,
appends the identifiers that are present, in order. -/
theorem foldl_tasksWithErrors (lastErrors : List shoot.LastError) :
    ∀ acc : List String,
      lastErrors.foldl
        (fun acc lastError =>
          match lastError.TaskID with
          | some taskID => acc ++ [taskID]
          | none => acc)
        acc
      = acc ++ lastErrors.filterMap (fun e => e.TaskID) := by
  induction lastErrors with
  | nil => intro acc; simp
  | cons e rest ih =>
    intro acc
    rw [List.foldl_cons, ih]
    cases hid : e.TaskID with
    | none => simp [List.filterMap_cons, hid]
    | some taskID => simp [List.filterMap_cons, hid]

/-- The identifiers that are present, in order, are the `TaskID` fields of the
entries that have one. -/
theorem filterMap_taskID_map_some (lastErrors : List shoot.LastError) :
    (lastErrors.filterMap (fun e => e.TaskID)).map some
      = (lastErrors.filter (fun e => e.TaskID.isSome)).map (fun e => e.TaskID) := by
  induction lastErrors with
  | nil => rfl
  | cons e rest ih =>
    cases hid : e.TaskID with
    | none => simp [List.filterMap_cons, List.filter_cons, hid, ih]
    | some taskID => simp [List.filterMap_cons, List.filter_cons, hid, ih]

/-- C5: `runForceDeleteShootFlow` returns nil exactly when the pre-flight error
handling, the run of the compiled flow and the invalidation of the shoot client
all succeed. When the pre-flight step fails, `HandleErrors` is the only call
made (the flow is not run, the client is not invalidated); when the flow run
fails, the client is not invalidated; in each of the three failing cases the
result is the non-nil pointer built by `NewWrappedLastErrors`. -/
theorem runForceDeleteShootFlow_result (h : shoot.Helpers) (o : shoot.Collaborators)
    (lastErrors : List shoot.LastError)
    (hnew : ∀ d e, (h.NewWrappedLastErrors d e).isSome = true) :
    ∃ f, shoot.forceDeleteFlow = some f ∧
      ((shoot.runForceDeleteShootFlow h o lastErrors).1 = shoot.Return.value none ↔
        o.handleErrors (shoot.NewErrorContext "Shoot cluster force deletion"
            (shoot.tasksWithErrors lastErrors)) = none ∧
        o.flowRun f (shoot.NewErrorContext "Shoot cluster force deletion"
            (shoot.tasksWithErrors lastErrors)) = none ∧
        o.invalidateClient = none) ∧
      (o.handleErrors (shoot.NewErrorContext "Shoot cluster force deletion"
            (shoot.tasksWithErrors lastErrors)) ≠ none →
        (∃ w, (shoot.runForceDeleteShootFlow h o lastErrors).1 = shoot.Return.value (some w)) ∧
        (shoot.runForceDeleteShootFlow h o lastErrors).2 =
          [shoot.Call.HandleErrors (shoot.NewErrorContext "Shoot cluster force deletion"
            (shoot.tasksWithErrors lastErrors))]) ∧
      (o.handleErrors (shoot.NewErrorContext "Shoot cluster force deletion"
            (shoot.tasksWithErrors lastErrors)) = none →
        o.flowRun f (shoot.NewErrorContext "Shoot cluster force deletion"
            (shoot.tasksWithErrors lastErrors)) ≠ none →
        (∃ w, (shoot.runForceDeleteShootFlow h o lastErrors).1 = shoot.Return.value (some w)) ∧
        (shoot.runForceDeleteShootFlow h o lastErrors).2 =
          [shoot.Call.HandleErrors (shoot.NewErrorContext "Shoot cluster force deletion"
              (shoot.tasksWithErrors lastErrors)),
           shoot.Call.Run f (shoot.NewErrorContext "Shoot cluster force deletion"
              (shoot.tasksWithErrors lastErrors))]) ∧
      (o.handleErrors (shoot.NewErrorContext "Shoot cluster force deletion"
            (shoot.tasksWithErrors lastErrors)) = none →
        o.flowRun f (shoot.NewErrorContext "Shoot cluster force deletion"
            (shoot.tasksWithErrors lastErrors)) = none →
        o.invalidateClient ≠ none →
        (∃ w, (shoot.runForceDeleteShootFlow h o lastErrors).1 = shoot.Return.value (some w)) ∧
        (shoot.runForceDeleteShootFlow h o lastErrors).2 =
          [shoot.Call.HandleErrors (shoot.NewErrorContext "Shoot cluster force deletion"
              (shoot.tasksWithErrors lastErrors)),
           shoot.Call.Run f (shoot.NewErrorContext "Shoot cluster force deletion"
              (shoot.tasksWithErrors lastErrors)),
           shoot.Call.InvalidateClient]) := by
  have hsome : ∀ d e, ∃ w, h.NewWrappedLastErrors d e = some w := fun d e =>
    Option.isSome_iff_exists.mp (hnew d e)
  cases hf : shoot.forceDeleteFlow with
  | none => exact absurd hf (by decide)
  | some f =>
    refine ⟨f, rfl, ?_⟩
    simp only [shoot.runForceDeleteShootFlow, hf]
    generalize shoot.NewErrorContext "Shoot cluster force deletion"
      (shoot.tasksWithErrors lastErrors) = ctx
    cases h1 : o.handleErrors ctx with
    | some e1 =>
      obtain ⟨w, hw⟩ := hsome (h.FormatLastErrDescription e1) e1
      simp [h1, hw]
    | none =>
      cases h2 : o.flowRun f ctx with
      | some e2 =>
        obtain ⟨w, hw⟩ := hsome (h.FormatLastErrDescription e2) (h.flowErrors e2)
        simp [h1, h2, hw]
      | none =>
        cases h3 : o.invalidateClient with
        | some e3 =>
          obtain ⟨w, hw⟩ := hsome
            (h.FormatLastErrDescription ("failed to invalidate shoot client: " ++ e3))
            ("failed to invalidate shoot client: " ++ e3)
          simp [h1, h2, h3, hw]
        | none =>
          simp [h1, h2, h3]

/-- Witness for C5: helpers that build the pointer from their arguments, a
pre-flight step that succeeds, a flow run that fails with "task failed", and one
earlier error for the task "Deleting secrets". -/
theorem runForceDeleteShootFlow_result_witness :
    (∀ d e, (some ({ Description := d, err := e } : shoot.WrappedLastErrors)).isSome = true) ∧
    (shoot.runForceDeleteShootFlow
        { FormatLastErrDescription := fun e => e
          NewWrappedLastErrors := fun d e => some { Description := d, err := e }
          flowErrors := fun e => e }
        { handleErrors := fun _ => none
          flowRun := fun _ _ => some "task failed"
          invalidateClient := none }
        [{ Description := "timeout", TaskID := some "Deleting secrets" }]).1
      ≠ shoot.Return.value none := by
  refine ⟨fun _ _ => rfl, ?_⟩
  obtain ⟨f, -, hiff, -, hrun, -⟩ := runForceDeleteShootFlow_result
    { FormatLastErrDescription := fun e => e
      NewWrappedLastErrors := fun d e => some { Description := d, err := e }
      flowErrors := fun e => e }
    { handleErrors := fun _ => none
      flowRun := fun _ _ => some "task failed"
      invalidateClient := none }
    [{ Description := "timeout", TaskID := some "Deleting secrets" }]
    (fun _ _ => rfl)
  intro hnil
  have h3 := hiff.mp hnil
  exact absurd h3.2.1 (by simp)

/-- C6: the list of identifiers that `runForceDeleteShootFlow` hands to the
error context is the sequence of the `TaskID` values of the entries of
`status.lastErrors` that have one, in the order of `status.lastErrors`; this
context is the one passed to `HandleErrors` and to the run of the flow. -/
theorem runForceDeleteShootFlow_errorContext (h : shoot.Helpers) (o : shoot.Collaborators)
    (lastErrors : List shoot.LastError) :
    shoot.tasksWithErrors lastErrors = lastErrors.filterMap (fun e => e.TaskID) ∧
    (shoot.tasksWithErrors lastErrors).map some
      = (lastErrors.filter (fun e => e.TaskID.isSome)).map (fun e => e.TaskID) ∧
    shoot.Call.HandleErrors
        { name := "Shoot cluster force deletion"
          lastErrorIDs := lastErrors.filterMap (fun e => e.TaskID) }
      ∈ (shoot.runForceDeleteShootFlow h o lastErrors).2 ∧
    (∀ c ∈ (shoot.runForceDeleteShootFlow h o lastErrors).2, ∀ ctx,
      (c = shoot.Call.HandleErrors ctx ∨ ∃ f, c = shoot.Call.Run f ctx) →
      ctx.lastErrorIDs = lastErrors.filterMap (fun e => e.TaskID)) := by
  have h1 : shoot.tasksWithErrors lastErrors = lastErrors.filterMap (fun e => e.TaskID) := by
    simp only [shoot.tasksWithErrors]
    rw [foldl_tasksWithErrors]
    rfl
  refine ⟨h1, ?_, ?_, ?_⟩
  · rw [h1]
    exact filterMap_taskID_map_some lastErrors
  · simp only [shoot.runForceDeleteShootFlow, shoot.NewErrorContext, h1]
    repeat' split
    all_goals simp
  · intro c hc ctx hctx
    simp only [shoot.runForceDeleteShootFlow, shoot.NewErrorContext, h1] at hc
    repeat' split at hc
    all_goals
      simp only [List.mem_cons, List.mem_singleton, List.not_mem_nil, or_false] at hc
      rcases hctx with rfl | ⟨f, rfl⟩ <;> simp at hc <;> first | (rw [hc]) | (rw [hc.2])

/-! ### Watch predicates -/

section Predicates

open predicate

/-- C7: for every update event, the seed-care `SeedPredicate` returns true
exactly when the old and the new Seed are both non-nil, the old
`status.lastOperation` is present with a type other than Delete and state
Processing, and the new one is present with a type other than Delete and state
Succeeded; that is, exactly when both are non-nil and
`ReconciliationFinishedSuccessfully` holds of the two last operations. -/
theorem seedPredicate_update (k : Constants) (e : TypedUpdateEvent (Option seedcare.Seed)) :
    ((seedcare.SeedPredicate k).Update e = true ↔
      ∃ objectOld objectNew, e.ObjectOld = some objectOld ∧ e.ObjectNew = some objectNew ∧
        (∃ oldOp, objectOld.Status.LastOperation = some oldOp ∧
          oldOp.Type_ ≠ k.LastOperationTypeDelete ∧
          oldOp.State = k.LastOperationStateProcessing) ∧
        (∃ newOp, objectNew.Status.LastOperation = some newOp ∧
          newOp.Type_ ≠ k.LastOperationTypeDelete ∧
          newOp.State = k.LastOperationStateSucceeded)) ∧
    ((seedcare.SeedPredicate k).Update e = true ↔
      ∃ objectOld objectNew, e.ObjectOld = some objectOld ∧ e.ObjectNew = some objectNew ∧
        ReconciliationFinishedSuccessfully k objectOld.Status.LastOperation
          objectNew.Status.LastOperation = true) := by
  obtain ⟨objectOld, objectNew⟩ := e
  cases objectOld with
  | none => cases objectNew <;> simp [seedcare.SeedPredicate, TypedFuncs.toPredicate, IsNil]
  | some old =>
    cases objectNew with
    | none => simp [seedcare.SeedPredicate, TypedFuncs.toPredicate, IsNil]
    | some new =>
      cases hold : old.Status.LastOperation with
      | none =>
        simp [seedcare.SeedPredicate, TypedFuncs.toPredicate, IsNil,
          ReconciliationFinishedSuccessfully, hold]
      | some oldOp =>
        cases hnew : new.Status.LastOperation with
        | none =>
          simp [seedcare.SeedPredicate, TypedFuncs.toPredicate, IsNil,
            ReconciliationFinishedSuccessfully, hold, hnew]
        | some newOp =>
          simp [seedcare.SeedPredicate, TypedFuncs.toPredicate, IsNil,
            ReconciliationFinishedSuccessfully, hold, hnew, and_assoc]

/-- C8: `SeedNameChangedPredicate` returns true for every create, delete and
generic event; for an update event it returns true exactly when the old and the
new Shoot are both non-nil and their `spec.seedName` differ, an unset seed name
counting as the empty string. -/
theorem seedNameChangedPredicate_events :
    (∀ e, shootstate.SeedNameChangedPredicate.Create e = true) ∧
    (∀ e, shootstate.SeedNameChangedPredicate.Delete e = true) ∧
    (∀ e, shootstate.SeedNameChangedPredicate.Generic e = true) ∧
    (∀ e, shootstate.SeedNameChangedPredicate.Update e = true ↔
      ∃ objectOld objectNew, e.ObjectOld = some objectOld ∧ e.ObjectNew = some objectNew ∧
        objectOld.Spec.SeedName.getD "" ≠ objectNew.Spec.SeedName.getD "") := by
  refine ⟨fun _ => rfl, fun _ => rfl, fun _ => rfl, ?_⟩
  intro e
  obtain ⟨objectOld, objectNew⟩ := e
  have hderef : ∀ p : Option String, shootstate.Deref p "" = p.getD "" := by
    intro p; cases p <;> rfl
  cases objectOld with
  | none =>
    cases objectNew <;> simp [shootstate.SeedNameChangedPredicate, TypedFuncs.toPredicate, IsNil]
  | some old =>
    cases objectNew with
    | none => simp [shootstate.SeedNameChangedPredicate, TypedFuncs.toPredicate, IsNil]
    | some new =>
      simp only [shootstate.SeedNameChangedPredicate, TypedFuncs.toPredicate, IsNil, hderef]
      simp
      exact ⟨fun h => fun h2 => h h2.symm, fun h => fun h2 => h h2.symm⟩

/-- The closure `has` answers whether the event type occurs in the list. -/
theorem has_iff_mem (events : List predicate.EventType) (event : predicate.EventType) :
    predicate.has events event = true ↔ event ∈ events := by
  induction events with
  | nil => simp [predicate.has]
  | cons e rest ih =>
    by_cases he : e = event
    · simp [predicate.has, he]
    · have hne : ¬ event = e := fun h => he h.symm
      simp [predicate.has, he, hne, ih]

/-- C9: for every list of event types, the predicate returned by
`TypedForEventTypes`, and the one returned by `ForEventTypes`, answers true to an
event of kind Create, Update, Delete or Generic exactly when that kind occurs in
the list, whatever the object of the event; for the empty list it answers false
to every event. -/
theorem forEventTypes_iff_mem (T O : Type) (events : List EventType) :
    ((∀ e, (TypedForEventTypes events : TypedPredicate T).Create e = true ↔ Create ∈ events) ∧
     (∀ e, (TypedForEventTypes events : TypedPredicate T).Update e = true ↔ Update ∈ events) ∧
     (∀ e, (TypedForEventTypes events : TypedPredicate T).Delete e = true ↔ Delete ∈ events) ∧
     (∀ e, (TypedForEventTypes events : TypedPredicate T).Generic e = true ↔ Generic ∈ events)) ∧
    ((∀ e, (ForEventTypes events : TypedPredicate O).Create e = true ↔ Create ∈ events) ∧
     (∀ e, (ForEventTypes events : TypedPredicate O).Update e = true ↔ Update ∈ events) ∧
     (∀ e, (ForEventTypes events : TypedPredicate O).Delete e = true ↔ Delete ∈ events) ∧
     (∀ e, (ForEventTypes events : TypedPredicate O).Generic e = true ↔ Generic ∈ events)) ∧
    ((∀ e, (TypedForEventTypes [] : TypedPredicate T).Create e = false) ∧
     (∀ e, (TypedForEventTypes [] : TypedPredicate T).Update e = false) ∧
     (∀ e, (TypedForEventTypes [] : TypedPredicate T).Delete e = false) ∧
     (∀ e, (TypedForEventTypes [] : TypedPredicate T).Generic e = false)) ∧
    ((∀ e, (ForEventTypes [] : TypedPredicate O).Create e = false) ∧
     (∀ e, (ForEventTypes [] : TypedPredicate O).Update e = false) ∧
     (∀ e, (ForEventTypes [] : TypedPredicate O).Delete e = false) ∧
     (∀ e, (ForEventTypes [] : TypedPredicate O).Generic e = false)) := by
  refine ⟨⟨?_, ?_, ?_, ?_⟩, ⟨?_, ?_, ?_, ?_⟩, ⟨?_, ?_, ?_, ?_⟩, ⟨?_, ?_, ?_, ?_⟩⟩
  all_goals intro e
  any_goals exact has_iff_mem events _
  all_goals rfl

/-- The loop of `TypedEvalGeneric` answers true exactly when no predicate
answers false. -/
theorem evalGenericLoop_iff {T : Type} (e : predicate.TypedGenericEvent T)
    (predicates : List (predicate.TypedPredicate T)) :
    predicate.evalGenericLoop e predicates = true ↔ ∀ p ∈ predicates, p.Generic e = true := by
  induction predicates with
  | nil => simp [predicate.evalGenericLoop]
  | cons p rest ih =>
    cases hp : p.Generic e with
    | false => simp [predicate.evalGenericLoop, hp]
    | true => simp [predicate.evalGenericLoop, hp, ih]

/-- C10: `TypedEvalGeneric(obj, predicates...)` returns true exactly when every
predicate of the list answers true to the generic event that wraps `obj`; for
the empty list it returns true. -/
theorem typedEvalGeneric_iff_all (T : Type) (obj : T) (predicates : List (TypedPredicate T)) :
    (TypedEvalGeneric obj predicates = true ↔
      ∀ p ∈ predicates, p.Generic { Object := obj } = true) ∧
    TypedEvalGeneric obj [] = true :=
  ⟨evalGenericLoop_iff { Object := obj } predicates, rfl⟩

/-- The loop over the relevant condition types answers true exactly when the
closure answers true for one of them. -/
theorem relevantConditionsLoop_iff
    (GetCondition : List Condition → ConditionType → Option Condition)
    (oldConditions newConditions : List Condition) (types : List ConditionType) :
    relevantConditionsLoop GetCondition oldConditions newConditions types = true ↔
      ∃ t ∈ types, wasConditionStatusReasonOrMessageUpdated
        (GetCondition oldConditions t) (GetCondition newConditions t) = true := by
  induction types with
  | nil => simp [relevantConditionsLoop]
  | cons c rest ih =>
    cases hc : wasConditionStatusReasonOrMessageUpdated
        (GetCondition oldConditions c) (GetCondition newConditions c) with
    | true => simp [relevantConditionsLoop, hc]
    | false => simp [relevantConditionsLoop, hc, ih]

/-- The closure answers true exactly when the condition is present on one side
only, or present on both sides with a different status, reason or message. -/
theorem wasConditionStatusReasonOrMessageUpdated_iff (o n : Option Condition) :
    wasConditionStatusReasonOrMessageUpdated o n = true ↔
      (o = none ∧ n ≠ none) ∨ (o ≠ none ∧ n = none) ∨
      (∃ oc nc, o = some oc ∧ n = some nc ∧
        (oc.Status ≠ nc.Status ∨ oc.Reason ≠ nc.Reason ∨ oc.Message ≠ nc.Message)) := by
  cases o with
  | none => cases n <;> simp [wasConditionStatusReasonOrMessageUpdated]
  | some oc =>
    cases n with
    | none => simp [wasConditionStatusReasonOrMessageUpdated]
    | some nc => simp [wasConditionStatusReasonOrMessageUpdated, or_assoc]

/-- C11: for every update event, the predicate returned by
`RelevantConditionsChanged` returns true exactly when, for at least one of the
relevant condition types, the condition of that type (as `GetCondition` finds
it) is present in exactly one of the old and the new object, or its status,
reason or message differs between them. Hence it returns false when, for every
relevant type, the condition is absent on both sides or present on both with
the same status, reason and message, whatever else changed (timestamps,
conditions of other types). The same holds of
`ManagedResourceConditionsChanged` with its three condition types. -/
theorem relevantConditionsChanged_update (T : Type)
    (GetCondition : List Condition → ConditionType → Option Condition)
    (getConditionsFromObject : T → List Condition) (relevantConditionTypes : List ConditionType)
    (c : ResourceConditionTypes) :
    (∀ e : TypedUpdateEvent T,
      (RelevantConditionsChanged GetCondition getConditionsFromObject
          relevantConditionTypes).Update e = true ↔
        ∃ t ∈ relevantConditionTypes,
          (GetCondition (getConditionsFromObject e.ObjectOld) t = none ∧
            GetCondition (getConditionsFromObject e.ObjectNew) t ≠ none) ∨
          (GetCondition (getConditionsFromObject e.ObjectOld) t ≠ none ∧
            GetCondition (getConditionsFromObject e.ObjectNew) t = none) ∨
          (∃ oc nc, GetCondition (getConditionsFromObject e.ObjectOld) t = some oc ∧
            GetCondition (getConditionsFromObject e.ObjectNew) t = some nc ∧
            (oc.Status ≠ nc.Status ∨ oc.Reason ≠ nc.Reason ∨ oc.Message ≠ nc.Message))) ∧
    (∀ e : TypedUpdateEvent T,
      (∀ t ∈ relevantConditionTypes,
        (GetCondition (getConditionsFromObject e.ObjectOld) t = none ∧
          GetCondition (getConditionsFromObject e.ObjectNew) t = none) ∨
        (∃ oc nc, GetCondition (getConditionsFromObject e.ObjectOld) t = some oc ∧
          GetCondition (getConditionsFromObject e.ObjectNew) t = some nc ∧
          oc.Status = nc.Status ∧ oc.Reason = nc.Reason ∧ oc.Message = nc.Message)) →
      (RelevantConditionsChanged GetCondition getConditionsFromObject
          relevantConditionTypes).Update e = false) ∧
    (∀ e : TypedUpdateEvent ManagedResource,
      (ManagedResourceConditionsChanged GetCondition c).Update e = true ↔
        ∃ t ∈ [c.ResourcesApplied, c.ResourcesHealthy, c.ResourcesProgressing],
          (GetCondition e.ObjectOld.Status.Conditions t = none ∧
            GetCondition e.ObjectNew.Status.Conditions t ≠ none) ∨
          (GetCondition e.ObjectOld.Status.Conditions t ≠ none ∧
            GetCondition e.ObjectNew.Status.Conditions t = none) ∨
          (∃ oc nc, GetCondition e.ObjectOld.Status.Conditions t = some oc ∧
            GetCondition e.ObjectNew.Status.Conditions t = some nc ∧
            (oc.Status ≠ nc.Status ∨ oc.Reason ≠ nc.Reason ∨ oc.Message ≠ nc.Message))) := by
  have main : ∀ (U : Type) (getC : U → List Condition) (types : List ConditionType)
      (e : TypedUpdateEvent U),
      (RelevantConditionsChanged GetCondition getC types).Update e = true ↔
        ∃ t ∈ types,
          (GetCondition (getC e.ObjectOld) t = none ∧ GetCondition (getC e.ObjectNew) t ≠ none) ∨
          (GetCondition (getC e.ObjectOld) t ≠ none ∧ GetCondition (getC e.ObjectNew) t = none) ∨
          (∃ oc nc, GetCondition (getC e.ObjectOld) t = some oc ∧
            GetCondition (getC e.ObjectNew) t = some nc ∧
            (oc.Status ≠ nc.Status ∨ oc.Reason ≠ nc.Reason ∨ oc.Message ≠ nc.Message)) := by
    intro U getC types e
    have hupd : (RelevantConditionsChanged GetCondition getC types).Update e
        = relevantConditionsLoop GetCondition (getC e.ObjectOld) (getC e.ObjectNew) types := rfl
    rw [hupd, relevantConditionsLoop_iff]
    constructor
    · rintro ⟨t, ht, h⟩
      exact ⟨t, ht, (wasConditionStatusReasonOrMessageUpdated_iff _ _).mp h⟩
    · rintro ⟨t, ht, h⟩
      exact ⟨t, ht, (wasConditionStatusReasonOrMessageUpdated_iff _ _).mpr h⟩
  refine ⟨main T getConditionsFromObject relevantConditionTypes, ?_, ?_⟩
  · intro e hsame
    cases hu : (RelevantConditionsChanged GetCondition getConditionsFromObject
        relevantConditionTypes).Update e with
    | false => rfl
    | true =>
      exfalso
      obtain ⟨t, ht, h⟩ := (main T getConditionsFromObject relevantConditionTypes e).mp hu
      rcases hsame t ht with ⟨ho, hn⟩ | ⟨oc, nc, ho, hn, hs, hr, hm⟩
      · rcases h with ⟨-, h2⟩ | ⟨h1, -⟩ | ⟨oc, nc, h1, -, -⟩
        · exact h2 hn
        · exact h1 ho
        · rw [ho] at h1; exact absurd h1 (by simp)
      · rcases h with ⟨h1, -⟩ | ⟨-, h2⟩ | ⟨oc2, nc2, h1, h2, hd⟩
        · rw [ho] at h1; exact absurd h1 (by simp)
        · rw [hn] at h2; exact absurd h2 (by simp)
        · rw [ho] at h1
          rw [hn] at h2
          cases Option.some.inj h1
          cases Option.some.inj h2
          rcases hd with hd | hd | hd
          · exact hd hs
          · exact hd hr
          · exact hd hm
  · intro e
    exact main ManagedResource (fun m => m.Status.Conditions)
      [c.ResourcesApplied, c.ResourcesHealthy, c.ResourcesProgressing] e

/-- The update function of `LastOperationChanged` for a new object without
operation annotation is `lastOperationStateChanged` of the two last
operations. -/
theorem lastOperationStateChanged_iff (k : OperationConstants)
    (oldLastOp newLastOp : Option LastOperation) :
    lastOperationStateChanged k oldLastOp newLastOp = true ↔
      oldLastOp ≠ newLastOp ∧
      ∃ newOp, newLastOp = some newOp ∧
        (newOp.State = k.LastOperationStateSucceeded ∨ newOp.State = k.LastOperationStateError
          ∨ newOp.State = k.LastOperationStateFailed) := by
  cases newLastOp with
  | none => simp [lastOperationStateChanged]
  | some new =>
    by_cases hst : new.State = k.LastOperationStateSucceeded ∨
        new.State = k.LastOperationStateError ∨ new.State = k.LastOperationStateFailed
    · have hb : (new.State == k.LastOperationStateSucceeded ||
          new.State == k.LastOperationStateError ||
          new.State == k.LastOperationStateFailed) = true := by
        simpa [or_assoc] using hst
      cases oldLastOp with
      | none => simp [lastOperationStateChanged, hb, hst]
      | some old => simp [lastOperationStateChanged, hb, hst]
    · have hb : (new.State == k.LastOperationStateSucceeded ||
          new.State == k.LastOperationStateError ||
          new.State == k.LastOperationStateFailed) = false := by
        cases hx : (new.State == k.LastOperationStateSucceeded ||
          new.State == k.LastOperationStateError ||
          new.State == k.LastOperationStateFailed) with
        | false => rfl
        | true =>
          exfalso
          apply hst
          simpa [or_assoc] using hx
      simp [lastOperationStateChanged, hb, hst]

/-- C12 as stated fails: an extension object without annotations whose last
operation was present and is now nil has a changed LastOperation and no
operation annotation, yet `Update` returns false; and so does one whose last
operation stays in state Processing while its progress moves from 10 to 50. -/
theorem lastOperationChanged_update_counterexample :
    ( hasOperationAnnotation apiConstants
      (ExtensionObject.Annotations { LastOperation := none }) = false ∧
    GetExtensionLastOperation { LastOperation := some { State := "Processing" } }
      ≠ GetExtensionLastOperation { LastOperation := none } ∧
    (LastOperationChanged apiConstants ( hasOperationAnnotation apiConstants)
        ExtensionObject.Annotations GetExtensionLastOperation).Update
      { ObjectOld := { LastOperation := some { State := "Processing" } }
        ObjectNew := { LastOperation := none } } = false) ∧
    ( hasOperationAnnotation apiConstants
      (ExtensionObject.Annotations
        { LastOperation := some { State := "Processing", Progress := 50 } }) = false ∧
    GetExtensionLastOperation { LastOperation := some { State := "Processing", Progress := 10 } }
      ≠ GetExtensionLastOperation
          { LastOperation := some { State := "Processing", Progress := 50 } } ∧
    (LastOperationChanged apiConstants ( hasOperationAnnotation apiConstants)
        ExtensionObject.Annotations GetExtensionLastOperation).Update
      { ObjectOld := { LastOperation := some { State := "Processing", Progress := 10 } }
        ObjectNew := { LastOperation := some { State := "Processing", Progress := 50 } } }
      = false) := by
  refine ⟨⟨by decide, by decide, by decide⟩, ⟨by decide, by decide, by decide⟩⟩

/-- C12, amended: for every update event whose new object carries no operation
annotation, whose old and new LastOperation differ, and whose new LastOperation
is present with state Succeeded, Error or Failed, `Update` returns true. -/
theorem lastOperationChanged_update (T : Type) (k : OperationConstants)
    ( HasOperationAnnotation : StringMap → Bool) (GetAnnotations : T → StringMap)
    (getLastOperation : T → Option LastOperation) (e : TypedUpdateEvent T)
    (newOp : LastOperation)
    (hno : HasOperationAnnotation (GetAnnotations e.ObjectNew) = false)
    (hdiff : getLastOperation e.ObjectOld ≠ getLastOperation e.ObjectNew)
    (hnew : getLastOperation e.ObjectNew = some newOp)
    (hstate : newOp.State = k.LastOperationStateSucceeded ∨
      newOp.State = k.LastOperationStateError ∨ newOp.State = k.LastOperationStateFailed) :
    (LastOperationChanged k HasOperationAnnotation GetAnnotations getLastOperation).Update e
        = true := by
  have hupd : (LastOperationChanged k HasOperationAnnotation GetAnnotations
      getLastOperation).Update e
      = lastOperationStateChanged k (getLastOperation e.ObjectOld)
          (getLastOperation e.ObjectNew) := by
    simp [LastOperationChanged, TypedFuncs.toPredicate, hno]
  rw [hupd]
  exact (lastOperationStateChanged_iff k _ _).mpr ⟨hdiff, newOp, hnew, hstate⟩

/-- Witness for C12, amended: an extension object without annotations whose last
operation goes from Processing to Succeeded. -/
theorem lastOperationChanged_update_witness :
    hasOperationAnnotation apiConstants
      (ExtensionObject.Annotations { LastOperation := some { State := "Succeeded" } }) = false ∧
    GetExtensionLastOperation { LastOperation := some { State := "Processing" } }
      ≠ GetExtensionLastOperation { LastOperation := some { State := "Succeeded" } } ∧
    (LastOperationChanged apiConstants ( hasOperationAnnotation apiConstants)
        ExtensionObject.Annotations GetExtensionLastOperation).Update
      { ObjectOld := { LastOperation := some { State := "Processing" } }
        ObjectNew := { LastOperation := some { State := "Succeeded" } } } = true :=
  ⟨by decide, by decide,
    lastOperationChanged_update ExtensionObject apiConstants
      ( hasOperationAnnotation apiConstants) ExtensionObject.Annotations
      GetExtensionLastOperation
      { ObjectOld := { LastOperation := some { State := "Processing" } }
        ObjectNew := { LastOperation := some { State := "Succeeded" } } }
      { State := "Succeeded" } (by decide) (by decide) rfl (Or.inl rfl)⟩

/-- Two last operations that agree in every field but the location pointer
inside `LastUpdateTime` (nil on the old one, set on the new one) are not deeply
equal: `Update` returns true for a new state Succeeded. -/
theorem lastOperationChanged_update_time_representation :
    (LastOperationChanged apiConstants ( hasOperationAnnotation apiConstants)
        ExtensionObject.Annotations GetExtensionLastOperation).Update
      { ObjectOld :=
          { LastOperation :=
              some { State := "Succeeded", LastUpdateTime := { wall := 0, ext := 63835596800 } } }
        ObjectNew :=
          { LastOperation :=
              some { State := "Succeeded",
                     LastUpdateTime :=
                       { wall := 0, ext := 63835596800, loc := some { name := "Local" } } } } }
      = true := by
  decide

/-- The index expression on a map is the value of the entry found under the key,
and the empty string when there is none. -/
theorem mapIndex_eq_lookup (m : StringMap) (key : String) :
    mapIndex m key = (m.lookup key).getD "" := by
  simp only [mapIndex]
  cases m.lookup key <;> rfl

/-- In a map (a list of entries with pairwise distinct keys) the entry found
under a key is the entry of the map with that key. -/
theorem lookup_eq_some_iff_mem (key v : String) :
    ∀ m : StringMap, (m.map Prod.fst).Nodup → (m.lookup key = some v ↔ (key, v) ∈ m)
  | [], _ => by simp
  | (k1, v1) :: rest, hnodup => by
    have hnd : k1 ∉ rest.map Prod.fst ∧ (rest.map Prod.fst).Nodup := by
      simpa [List.nodup_cons] using hnodup
    have ih := lookup_eq_some_iff_mem key v rest hnd.2
    by_cases hk : key = k1
    · subst hk
      have hnot : (key, v) ∉ rest := fun hmem =>
        hnd.1 (List.mem_map.mpr ⟨(key, v), hmem, rfl⟩)
      simp only [List.lookup_cons, beq_self_eq_true, Option.some.injEq, List.mem_cons,
        Prod.mk.injEq, true_and]
      constructor
      · intro h; exact Or.inl h.symm
      · rintro (h | h)
        · exact h.symm
        · exact absurd h hnot
    · have hb : (key == k1) = false := by simpa using hk
      simp only [List.lookup_cons, hb, List.mem_cons, Prod.mk.injEq, hk, false_and, false_or]
      exact ih

/-- C13: for a create event the predicate returned by `LastOperationChanged`
returns true exactly when the value found under the gardener operation key in
the object's annotations (the empty string when there is no such entry) is not
reconcile and the object's LastOperation is present with state Failed. When the
constant reconcile is not the empty string, this is: the entry found under the
key is not reconcile; and for annotations with pairwise distinct keys: the
annotations have no entry (operation key, reconcile). For every delete and every
generic event the predicate returns false. -/
theorem lastOperationChanged_create (T : Type) (k : OperationConstants)
    ( HasOperationAnnotation : StringMap → Bool) (GetAnnotations : T → StringMap)
    (getLastOperation : T → Option LastOperation) :
    (∀ e : TypedCreateEvent T,
      (LastOperationChanged k HasOperationAnnotation GetAnnotations getLastOperation).Create e
          = true ↔
        ((GetAnnotations e.Object).lookup k.GardenerOperation).getD ""
          ≠ k.GardenerOperationReconcile ∧
        ∃ op, getLastOperation e.Object = some op ∧ op.State = k.LastOperationStateFailed) ∧
    (k.GardenerOperationReconcile ≠ "" → ∀ e : TypedCreateEvent T,
      ((LastOperationChanged k HasOperationAnnotation GetAnnotations getLastOperation).Create e
          = true ↔
        (GetAnnotations e.Object).lookup k.GardenerOperation
          ≠ some k.GardenerOperationReconcile ∧
        ∃ op, getLastOperation e.Object = some op ∧ op.State = k.LastOperationStateFailed)) ∧
    (k.GardenerOperationReconcile ≠ "" → ∀ e : TypedCreateEvent T,
      ((GetAnnotations e.Object).map Prod.fst).Nodup →
      ((LastOperationChanged k HasOperationAnnotation GetAnnotations getLastOperation).Create e
          = true ↔
        (k.GardenerOperation, k.GardenerOperationReconcile) ∉ GetAnnotations e.Object ∧
        ∃ op, getLastOperation e.Object = some op ∧ op.State = k.LastOperationStateFailed)) ∧
    (∀ e : TypedDeleteEvent T,
      (LastOperationChanged k HasOperationAnnotation GetAnnotations getLastOperation).Delete e
          = false) ∧
    (∀ e : TypedGenericEvent T,
      (LastOperationChanged k HasOperationAnnotation GetAnnotations getLastOperation).Generic e
          = false) := by
  have main : ∀ e : TypedCreateEvent T,
      (LastOperationChanged k HasOperationAnnotation GetAnnotations getLastOperation).Create e
          = true ↔
        ((GetAnnotations e.Object).lookup k.GardenerOperation).getD ""
          ≠ k.GardenerOperationReconcile ∧
        ∃ op, getLastOperation e.Object = some op ∧ op.State = k.LastOperationStateFailed := by
    intro e
    rw [← mapIndex_eq_lookup]
    by_cases hrec : mapIndex (GetAnnotations e.Object) k.GardenerOperation
        = k.GardenerOperationReconcile
    · simp [LastOperationChanged, TypedFuncs.toPredicate, hrec]
    · cases hop : getLastOperation e.Object with
      | none =>
        simp [LastOperationChanged, TypedFuncs.toPredicate, hrec, hop, lastOperationStateFailed]
      | some op =>
        simp [LastOperationChanged, TypedFuncs.toPredicate, hrec, hop, lastOperationStateFailed]
  have value : k.GardenerOperationReconcile ≠ "" → ∀ m : StringMap,
      ((m.lookup k.GardenerOperation).getD "" ≠ k.GardenerOperationReconcile ↔
        m.lookup k.GardenerOperation ≠ some k.GardenerOperationReconcile) := by
    intro hne m
    cases hl : m.lookup k.GardenerOperation with
    | none =>
      simp only [Option.getD_none, ne_eq, reduceCtorEq, not_false_eq_true, iff_true]
      exact fun h => hne h.symm
    | some v => simp
  refine ⟨main, ?_, ?_, fun _ => rfl, fun _ => rfl⟩
  · intro hne e
    rw [main e, value hne]
  · intro hne e hnodup
    rw [main e, value hne, ne_eq, lookup_eq_some_iff_mem _ _ _ hnodup]

open controllerinstallation in
/-- C14 as stated fails: for two ControllerInstallations with the same
`metadata.resourceVersion` and no difference at all (a periodic resync of the
cache) `Update` returns true, although no reference changed and no deletion
timestamp was set. -/
theorem controllerInstallationPredicate_update_counterexample :
    ControllerInstallationPredicate.Update
      { ObjectOld := some { ResourceVersion := "42" }
        ObjectNew := some { ResourceVersion := "42" } } = some true ∧
    ¬ ((({ ResourceVersion := "42" } : ControllerInstallation).DeletionTimestamp = none ∧
          ({ ResourceVersion := "42" } : ControllerInstallation).DeletionTimestamp ≠ none) ∨
        ({ ResourceVersion := "42" } : ControllerInstallation).Spec.DeploymentRef
          ≠ ({ ResourceVersion := "42" } : ControllerInstallation).Spec.DeploymentRef ∨
        ({ ResourceVersion := "42" } : ControllerInstallation).Spec.RegistrationRef.ResourceVersion
          ≠ ({ ResourceVersion := "42" } :
              ControllerInstallation).Spec.RegistrationRef.ResourceVersion ∨
        ({ ResourceVersion := "42" } : ControllerInstallation).Spec.SeedRef.ResourceVersion
          ≠ ({ ResourceVersion := "42" } : ControllerInstallation).Spec.SeedRef.ResourceVersion) := by
  refine ⟨by decide, by decide⟩

open controllerinstallation in
/-- C14, amended: for every update event, `ControllerInstallationPredicate`
returns true only if the old and the new object have the same
`metadata.resourceVersion` (a periodic resync), or the references change
(`spec.deploymentRef`, or the resourceVersion of `spec.registrationRef` or of
`spec.seedRef`, differs between old and new), or the deletion timestamp gets set
(unset on the old object, set on the new one). -/
theorem controllerInstallationPredicate_update
    (e : TypedUpdateEvent (Option ControllerInstallation))
    (h : ControllerInstallationPredicate.Update e = some true) :
    ∃ objectOld objectNew, e.ObjectOld = some objectOld ∧ e.ObjectNew = some objectNew ∧
      (objectOld.ResourceVersion = objectNew.ResourceVersion ∨
        (objectOld.DeletionTimestamp = none ∧ objectNew.DeletionTimestamp ≠ none) ∨
        objectOld.Spec.DeploymentRef ≠ objectNew.Spec.DeploymentRef ∨
        objectOld.Spec.RegistrationRef.ResourceVersion
          ≠ objectNew.Spec.RegistrationRef.ResourceVersion ∨
        objectOld.Spec.SeedRef.ResourceVersion ≠ objectNew.Spec.SeedRef.ResourceVersion) := by
  obtain ⟨objectOld, objectNew⟩ := e
  cases objectOld with
  | none => simp [ControllerInstallationPredicate] at h
  | some old =>
    cases objectNew with
    | none => simp [ControllerInstallationPredicate] at h
    | some new =>
      refine ⟨old, new, rfl, rfl, ?_⟩
      by_cases hrv : old.ResourceVersion = new.ResourceVersion
      · exact Or.inl hrv
      · right
        have hb : (old.DeletionTimestamp.isNone && new.DeletionTimestamp.isSome ||
            !(decide (old.Spec.DeploymentRef = new.Spec.DeploymentRef)) ||
            old.Spec.RegistrationRef.ResourceVersion
              != new.Spec.RegistrationRef.ResourceVersion ||
            old.Spec.SeedRef.ResourceVersion != new.Spec.SeedRef.ResourceVersion) = true := by
          simpa [ControllerInstallationPredicate, IsNil, hrv] using h
        simp only [Bool.or_eq_true, Bool.and_eq_true, Option.isNone_iff_eq_none,
          Bool.not_eq_true', decide_eq_false_iff_not, bne_iff_ne, ne_eq,
          Option.isSome_iff_ne_none] at hb
        rcases hb with ((hb | hb) | hb) | hb
        · exact Or.inl hb
        · exact Or.inr (Or.inl hb)
        · exact Or.inr (Or.inr (Or.inl hb))
        · exact Or.inr (Or.inr (Or.inr hb))

open controllerinstallation in
/-- Witness for C14, amended: the deletion timestamp gets set between two
versions of a ControllerInstallation. -/
theorem controllerInstallationPredicate_update_witness :
    ControllerInstallationPredicate.Update
      { ObjectOld := some { ResourceVersion := "1" }
        ObjectNew := some { ResourceVersion := "2", DeletionTimestamp := some 1700000000 } }
      = some true ∧
    ∃ objectOld objectNew,
      (some { ResourceVersion := "1" } : Option ControllerInstallation) = some objectOld ∧
      (some { ResourceVersion := "2", DeletionTimestamp := some 1700000000 } :
        Option ControllerInstallation) = some objectNew ∧
      (objectOld.ResourceVersion = objectNew.ResourceVersion ∨
        (objectOld.DeletionTimestamp = none ∧ objectNew.DeletionTimestamp ≠ none) ∨
        objectOld.Spec.DeploymentRef ≠ objectNew.Spec.DeploymentRef ∨
        objectOld.Spec.RegistrationRef.ResourceVersion
          ≠ objectNew.Spec.RegistrationRef.ResourceVersion ∨
        objectOld.Spec.SeedRef.ResourceVersion ≠ objectNew.Spec.SeedRef.ResourceVersion) :=
  ⟨by decide,
    controllerInstallationPredicate_update
      { ObjectOld := some { ResourceVersion := "1" }
        ObjectNew := some { ResourceVersion := "2", DeletionTimestamp := some 1700000000 } }
      (by decide)⟩

/-- The comparison `ptr.Equal` of two optional values is their equality. -/
theorem ptrEqual_iff {α : Type} [DecidableEq α] (a b : Option α) :
    ptrEqual a b = true ↔ a = b := by
  cases a <;> cases b <;> simp [ptrEqual]

open networkpolicy in
/-- C15: for every update event in which the old and the new Cluster both carry
a decodable Shoot that has a networking section, `ClusterPredicate` returns
normally, and it returns true exactly when, for a new shoot with workers, the
pods, services or nodes CIDR differs between old and new (optional values
compared by presence and content), and for a workerless new shoot, the services
CIDR differs. For every create, delete and generic event it returns false. -/
theorem clusterPredicate_update (Cluster : Type) (h : Helpers Cluster)
    (e : TypedUpdateEvent (Option Cluster)) (cluster oldCluster : Cluster)
    (shoot oldShoot : Shoot) (networking oldNetworking : Networking)
    (hnew : e.ObjectNew = some cluster) (hold : e.ObjectOld = some oldCluster)
    (hshoot : h.ShootFromCluster cluster = (some shoot, none))
    (holdShoot : h.ShootFromCluster oldCluster = (some oldShoot, none))
    (hnet : shoot.Spec.Networking = some networking)
    (holdNet : oldShoot.Spec.Networking = some oldNetworking) :
    (∃ b, (ClusterPredicate h).Update e = some b ∧
      (b = true ↔
        if h.IsWorkerless shoot = true then networking.Services ≠ oldNetworking.Services
        else networking.Pods ≠ oldNetworking.Pods ∨
          networking.Services ≠ oldNetworking.Services ∨
          networking.Nodes ≠ oldNetworking.Nodes)) ∧
    (∀ c, (ClusterPredicate h).Create c = false) ∧
    (∀ d, (ClusterPredicate h).Delete d = false) ∧
    (∀ g, (ClusterPredicate h).Generic g = false) := by
  refine ⟨?_, fun _ => rfl, fun _ => rfl, fun _ => rfl⟩
  have hne : ∀ a b : Option String, (!ptrEqual a b) = true ↔ a ≠ b := by
    intro a b
    rw [Bool.not_eq_true', ← Bool.not_eq_true, ptrEqual_iff]
  cases hw : h.IsWorkerless shoot with
  | true =>
    refine ⟨!ptrEqual networking.Services oldNetworking.Services, ?_, ?_⟩
    · simp only [ClusterPredicate, hnew, hold, hshoot, holdShoot, hnet, holdNet, hw, if_true]
    · rw [if_pos rfl]
      exact hne _ _
  | false =>
    refine ⟨!ptrEqual networking.Pods oldNetworking.Pods ||
      !ptrEqual networking.Services oldNetworking.Services ||
      !ptrEqual networking.Nodes oldNetworking.Nodes, ?_, ?_⟩
    · simp only [ClusterPredicate, hnew, hold, hshoot, holdShoot, hnet, holdNet, hw,
        Bool.false_eq_true, if_false]
    · rw [if_neg (by decide)]
      simp only [Bool.or_eq_true, hne, or_assoc]

open networkpolicy in
/-- Witness for C15: the cluster carries its shoot, the shoot has workers, and
the pods CIDR changes between the old and the new shoot. -/
theorem clusterPredicate_update_witness :
    (∃ b, (ClusterPredicate
        ({ ShootFromCluster := fun c => (some c, none), IsWorkerless := fun _ => false } :
          Helpers Shoot)).Update
        { ObjectOld := some { Spec := { Networking := some { Pods := some "10.0.0.0/16" } } }
          ObjectNew := some { Spec := { Networking := some { Pods := some "10.1.0.0/16" } } } }
        = some b ∧
      (b = true ↔
        if (fun _ : Shoot => false)
            { Spec := { Networking := some { Pods := some "10.1.0.0/16" } } } = true then
          ({ Pods := some "10.1.0.0/16" } : Networking).Services
            ≠ ({ Pods := some "10.0.0.0/16" } : Networking).Services
        else
          ({ Pods := some "10.1.0.0/16" } : Networking).Pods
            ≠ ({ Pods := some "10.0.0.0/16" } : Networking).Pods ∨
          ({ Pods := some "10.1.0.0/16" } : Networking).Services
            ≠ ({ Pods := some "10.0.0.0/16" } : Networking).Services ∨
          ({ Pods := some "10.1.0.0/16" } : Networking).Nodes
            ≠ ({ Pods := some "10.0.0.0/16" } : Networking).Nodes)) :=
  (clusterPredicate_update Shoot
    { ShootFromCluster := fun c => (some c, none), IsWorkerless := fun _ => false }
    { ObjectOld := some { Spec := { Networking := some { Pods := some "10.0.0.0/16" } } }
      ObjectNew := some { Spec := { Networking := some { Pods := some "10.1.0.0/16" } } } }
    { Spec := { Networking := some { Pods := some "10.1.0.0/16" } } }
    { Spec := { Networking := some { Pods := some "10.0.0.0/16" } } }
    { Spec := { Networking := some { Pods := some "10.1.0.0/16" } } }
    { Spec := { Networking := some { Pods := some "10.0.0.0/16" } } }
    { Pods := some "10.1.0.0/16" } { Pods := some "10.0.0.0/16" }
    rfl rfl rfl rfl rfl rfl).1

/-- The saturation of `Time.Sub` does not move a duration across one hour. -/
theorem timeSub_le_hour_iff (t u : Int) :
    activity.timeSub t u ≤ activity.Hour ↔ t - u ≤ activity.Hour := by
  simp only [activity.timeSub, activity.Hour, activity.maxDuration, activity.minDuration]
  split
  · constructor <;> intro h <;> omega
  · split
    · constructor <;> intro h <;> omega
    · exact Iff.rfl

open activity in
/-- What `OnlyNewlyCreatedObjects` computes for a create event: true exactly
when the event carries an object and the clock's time minus the creation
timestamp is at most one hour. -/
theorem onlyNewlyCreatedObjects_create_iff (r : Reconciler)
    (e : TypedCreateEvent (Option ObjectMeta)) :
    (OnlyNewlyCreatedObjects r).Create e = true ↔
      ∃ objMeta, e.Object = some objMeta ∧ r.Now - objMeta.CreationTimestamp ≤ Hour := by
  obtain ⟨obj⟩ := e
  cases obj with
  | none => simp [OnlyNewlyCreatedObjects, TypedFuncs.toPredicate, Accessor]
  | some objMeta =>
    simp [OnlyNewlyCreatedObjects, TypedFuncs.toPredicate, Accessor, timeSub_le_hour_iff]

open activity in
/-- C16, at the failing input: for an object created exactly one hour before the
clock's current time, the create function of `OnlyNewlyCreatedObjects` returns
true, although the object was not created less than an hour ago. -/
theorem onlyNewlyCreatedObjects_create_at_one_hour :
    (OnlyNewlyCreatedObjects { Now := 1700003600000000000 }).Create
      { Object := some { CreationTimestamp := 1700000000000000000 } } = true ∧
    ¬ ((1700003600000000000 : Int) - 1700000000000000000 < Hour) := by
  refine ⟨?_, by decide⟩
  exact (onlyNewlyCreatedObjects_create_iff _ _).mpr
    ⟨{ CreationTimestamp := 1700000000000000000 }, rfl, by decide⟩

/-- The two-valued index expression finds a key exactly when the map has an
entry with that key. -/
theorem mapHas_iff_mem (key : String) :
    ∀ m : StringMap, mapHas m key = true ↔ ∃ v, (key, v) ∈ m
  | [] => by simp [mapHas]
  | (k1, v1) :: rest => by
    have ih := mapHas_iff_mem key rest
    by_cases hk : key = k1
    · subst hk
      simp only [mapHas, List.lookup_cons, beq_self_eq_true, true_iff]
      exact ⟨v1, List.mem_cons_self _ _⟩
    · have hb : (key == k1) = false := by simpa using hk
      simp only [mapHas, List.lookup_cons, hb] at ih ⊢
      rw [ih]
      constructor
      · rintro ⟨v, hv⟩
        exact ⟨v, List.mem_cons_of_mem _ hv⟩
      · rintro ⟨v, hv⟩
        rcases List.mem_cons.mp hv with h | h
        · exact absurd (congrArg Prod.fst h) hk
        · exact ⟨v, h⟩

open activity in
/-- C17 as stated fails: for a generic event whose object has no labels,
`NeedsSecretBindingReferenceLabelPredicate` returns true, although the object
has no entry for the label `reference.gardener.cloud/secretbinding`. -/
theorem needsSecretBindingReferenceLabelPredicate_generic_without_label :
    (NeedsSecretBindingReferenceLabelPredicate "reference.gardener.cloud/secretbinding").Generic
      { Object := some { CreationTimestamp := 1700000000000000000, Labels := [] } } = true ∧
    ¬ ∃ v, ("reference.gardener.cloud/secretbinding", v)
      ∈ ({ CreationTimestamp := 1700000000000000000, Labels := [] } : ObjectMeta).Labels := by
  refine ⟨rfl, ?_⟩
  rintro ⟨v, hv⟩
  simp at hv

open activity in
/-- C17, amended: for every create, update and delete event, if
`NeedsSecretBindingReferenceLabelPredicate` returns true then the event's object
(for an update: the old or the new object) has an entry for the label key;
generic events are not filtered: `GenericFunc` is unset and the predicate
answers true to every generic event. -/
theorem needsSecretBindingReferenceLabelPredicate_checked_events (label : String) :
    (∀ e, (NeedsSecretBindingReferenceLabelPredicate label).Create e = true →
      ∃ objMeta, e.Object = some objMeta ∧ ∃ v, (label, v) ∈ objMeta.Labels) ∧
    (∀ e, (NeedsSecretBindingReferenceLabelPredicate label).Update e = true →
      ∃ oldObjMeta objMeta, e.ObjectOld = some oldObjMeta ∧ e.ObjectNew = some objMeta ∧
        ((∃ v, (label, v) ∈ oldObjMeta.Labels) ∨ (∃ v, (label, v) ∈ objMeta.Labels))) ∧
    (∀ e, (NeedsSecretBindingReferenceLabelPredicate label).Delete e = true →
      ∃ objMeta, e.Object = some objMeta ∧ ∃ v, (label, v) ∈ objMeta.Labels) ∧
    (∀ e, (NeedsSecretBindingReferenceLabelPredicate label).Generic e = true) := by
  refine ⟨?_, ?_, ?_, fun _ => rfl⟩
  · intro e h
    obtain ⟨obj⟩ := e
    cases obj with
    | none =>
      simp [NeedsSecretBindingReferenceLabelPredicate, TypedFuncs.toPredicate, Accessor] at h
    | some objMeta =>
      refine ⟨objMeta, rfl, (mapHas_iff_mem label objMeta.Labels).mp ?_⟩
      simpa [NeedsSecretBindingReferenceLabelPredicate, TypedFuncs.toPredicate, Accessor]
        using h
  · intro e h
    obtain ⟨objOld, objNew⟩ := e
    cases objOld with
    | none =>
      simp [NeedsSecretBindingReferenceLabelPredicate, TypedFuncs.toPredicate, Accessor] at h
    | some oldObjMeta =>
      cases objNew with
      | none =>
        simp [NeedsSecretBindingReferenceLabelPredicate, TypedFuncs.toPredicate, Accessor] at h
      | some objMeta =>
        have hb : mapHas oldObjMeta.Labels label = true ∨ mapHas objMeta.Labels label = true := by
          simpa [NeedsSecretBindingReferenceLabelPredicate, TypedFuncs.toPredicate, Accessor]
            using h
        refine ⟨oldObjMeta, objMeta, rfl, rfl, ?_⟩
        rcases hb with hb | hb
        · exact Or.inl ((mapHas_iff_mem label _).mp hb)
        · exact Or.inr ((mapHas_iff_mem label _).mp hb)
  · intro e h
    obtain ⟨obj, unknown⟩ := e
    cases obj with
    | none =>
      simp [NeedsSecretBindingReferenceLabelPredicate, TypedFuncs.toPredicate, Accessor] at h
    | some objMeta =>
      refine ⟨objMeta, rfl, (mapHas_iff_mem label objMeta.Labels).mp ?_⟩
      simpa [NeedsSecretBindingReferenceLabelPredicate, TypedFuncs.toPredicate, Accessor]
        using h

open activity in
/-- Witness for C17, amended: a create event for an object that carries the
label is let through, and the object has the entry. -/
theorem needsSecretBindingReferenceLabelPredicate_checked_events_witness :
    (NeedsSecretBindingReferenceLabelPredicate "reference.gardener.cloud/secretbinding").Create
      { Object := some
          { Labels := [("reference.gardener.cloud/secretbinding", "true")] } } = true ∧
    ∃ objMeta,
      (some { Labels := [("reference.gardener.cloud/secretbinding", "true")] } :
        Option ObjectMeta) = some objMeta ∧
      ∃ v, ("reference.gardener.cloud/secretbinding", v) ∈ objMeta.Labels :=
  ⟨by decide,
    (needsSecretBindingReferenceLabelPredicate_checked_events
      "reference.gardener.cloud/secretbinding").1
      { Object := some { Labels := [("reference.gardener.cloud/secretbinding", "true")] } }
      (by decide)⟩

end Predicates

end Gardener
